import Mathlib

/-!
Verification development for the AuraMed OPD queue orchestration backend
(`src/backend`).  The Python source is shallowly embedded: every operation of
`main.py` / `queue_logic.py` that the checked properties mention is translated
into an executable Lean definition over an explicit database state.  Machine
integers are modelled as `Int` (Python integers are unbounded), local times and
timestamps as `Int` minutes, and fallible endpoints return an `Except` value
together with the (possibly partially updated) database.
-/

set_option maxHeartbeats 1000000

/-- Token lifecycle states, from `models.TokenState`. -/
inductive TokenState where
  | BOOKED
  | ARRIVED
  | SERVING
  | SKIPPED
  | CANCELLED
  | COMPLETED
deriving DecidableEq, Repr

/-- A session row (`models.Session` / the `sessions` table).  Times of day are
kept as the raw `HH:MM` strings exactly as stored. -/
structure SessionRow where
  id : Int
  clinic_id : String
  doctor_id : String
  date_key : String
  start_time_local : String
  end_time_local : String
  slot_minutes : Int
  micro_buffer_minutes : Int
  break_every_n : Int
  break_minutes : Int
  emergency_reserve_minutes : Int
  planned_leave : Bool
  unplanned_closed : Bool
  emergency_debt_minutes : Int
deriving DecidableEq, Repr

/-- A token row (`models.Token` / the `tokens` table).  Timestamps are `Int`
minutes (`none` = SQL NULL). -/
structure TokenRow where
  id : Int
  session_id : Int
  token_no : Int
  phone : String
  name : String
  urgency : String
  complaint_text : String
  intake_summary : String
  state : TokenState
  slot_index : Option Int
  scheduled_start_local : String
  scheduled_end_local : String
  booked_at : Int
  arrived_at : Option Int
  serving_at : Option Int
  completed_at : Option Int
  last_state_change_at : Int
deriving DecidableEq, Repr

/-- A client-event row (`models.ClientEvent` / the `client_events` table). -/
structure ClientEventRow where
  session_id : Int
  client_id : String
  event_id : String
  event_type : String
deriving DecidableEq, Repr

/-- The persistent state the endpoints read and write: the three tables plus
the autoincrement counters for fresh primary keys. -/
structure DB where
  sessions : List SessionRow
  tokens : List TokenRow
  client_events : List ClientEventRow
  nextSessionId : Int
  nextTokenId : Int
deriving DecidableEq, Repr

/-- The empty database: no rows, counters at 1. -/
def initDB : DB := ⟨[], [], [], 1, 1⟩

/-- An HTTP-level failure.  `http` is `HTTPException(status_code, detail)`;
`hang` marks a request that never returns (the slot-planner loop diverging on a
degenerate configuration), which leaves the database untouched. -/
inductive Fail where
  | http (status : Int) (detail : String)
  | hang
deriving DecidableEq, Repr

/-- `queue_logic.ArrivalWindow` (field `end` is renamed `stop`: `end` is a Lean
keyword). -/
structure ArrivalWindow where
  start : Int
  stop : Int
deriving DecidableEq, Repr

/-- One entry of the generated day plan (`_generate_slots` emits dicts with
these fields). -/
structure SlotEntry where
  type : String
  slot_index : Option Int
  start_local : String
  end_local : String
deriving DecidableEq, Repr

/-! ## Python string/int primitives used by the time helpers -/

/-- The whitespace characters Python's `str.strip()` removes (ASCII part). -/
def pySpace (c : Char) : Bool :=
  c = ' ' || c = '\t' || c = '\n' || c = '\x0d' || c = '\x0b' || c = '\x0c'

/-- Python `str.strip()` on the character list of a string. -/
def pyStripL (l : List Char) : List Char :=
  ((l.dropWhile pySpace).reverse.dropWhile pySpace).reverse

/-- Python `str.strip()`. -/
def pyStrip (s : String) : String := ⟨pyStripL s.data⟩

/-- Python `str.split(sep)` for a one-character separator, on character lists
(structurally recursive so that it evaluates inside the kernel; agrees with
`String.splitOn` for this use). -/
def splitOnChar (c : Char) : List Char → List (List Char)
  | [] => [[]]
  | x :: xs =>
    let r := splitOnChar c xs
    if x = c then [] :: r
    else
      match r with
      | [] => [[x]]
      | y :: ys => (x :: y) :: ys

/-- Checks the digits-and-underscores body of a Python integer literal: an
underscore must sit between two digits. The first character has already been
checked to be a digit by the caller. -/
def pyNumTail : List Char → Bool
  | [] => true
  | '_' :: rest =>
    match rest with
    | [] => false
    | d :: rest2 => d.isDigit && pyNumTail rest2
  | c :: rest => c.isDigit && pyNumTail rest

/-- Numeric value of a digit string (underscores already removed). -/
def digitsVal (l : List Char) : Nat :=
  l.foldl (fun a c => 10 * a + (c.toNat - 48)) 0

/-- Python `int(s)` on a character list: strip whitespace, optional single
sign, then digits with single underscores between digits; anything else raises
(`none`). -/
def pyIntL (l : List Char) : Option Int :=
  let t := pyStripL l
  let core : List Char → Option Int := fun l =>
    match l with
    | [] => none
    | c :: _ =>
      if c.isDigit && pyNumTail l then some (Int.ofNat (digitsVal (l.filter (fun x => x ≠ '_'))))
      else none
  match t with
  | '+' :: rest => core rest
  | '-' :: rest => (core rest).map (fun v => -v)
  | _ => core t

/-- Python `int(s)` on a string. -/
def pyInt (s : String) : Option Int := pyIntL s.data

/-- `main._parse_hhmm`: parse a local `HH:MM` string to minutes from midnight;
empty/malformed input yields 0, parsed components are clamped to
hour ∈ [0,23], minute ∈ [0,59]. -/
def _parse_hhmm (s : String) : Int :=
  let raw := pyStripL s.data
  if raw = [] then 0
  else
    match splitOnChar ':' raw with
    | [p1, p2] =>
      match pyIntL p1, pyIntL p2 with
      | some h, some m => max 0 (min 23 h) * 60 + max 0 (min 59 m)
      | _, _ => 0
    | _ => 0

/-- `main._fmt_hhmm`: format minutes from midnight as `HH:MM` (clamped below at
0, hours wrapped mod 24). -/
def _fmt_hhmm (minutes_from_midnight : Int) : String :=
  let m := max 0 minutes_from_midnight
  let h := (m.fdiv 60).emod 24
  let mm := m.emod 60
  let pad : Int → String := fun v =>
    if v < 10 then "0" ++ toString v else toString v
  pad h ++ ":" ++ pad mm

/-! ## Arrival estimator (`queue_logic.py`) -/

/-- `queue_logic._breaks_before_position`. Python `//` is floor division
(`Int.fdiv`). -/
def _breaks_before_position (session : SessionRow) (position_index : Int) : Int :=
  if session.break_every_n ≤ 0 then 0
  else position_index.fdiv session.break_every_n

/-- `queue_logic.estimate_call_time`: minutes ahead of `now` at which the token
at `position_index` is expected to be called. -/
def estimate_call_time (session : SessionRow) (position_index : Int) (now : Int) : Int :=
  let per_patient := session.slot_minutes + session.micro_buffer_minutes
  let breaks := _breaks_before_position session position_index
  let minutes := position_index * per_patient + breaks * session.break_minutes
  let reserve := session.emergency_reserve_minutes
  let debt := max 0 session.emergency_debt_minutes
  let absorbed := min reserve debt
  let remaining_debt := debt - absorbed
  now + (minutes + remaining_debt)

/-- `queue_logic.compute_arrival_window`: symmetric confidence band around the
estimate, floored at `now + 5`. -/
def compute_arrival_window (session : SessionRow) (position_index : Int) (now : Int) :
    ArrivalWindow :=
  let call_time := estimate_call_time session position_index now
  let base_width : Int := if session.emergency_debt_minutes > 0 then 30 else 20
  let start := call_time - base_width / 2
  let stop := call_time + base_width / 2
  if stop < now + 5 then
    { start := now + 5, stop := now + 5 + base_width }
  else
    { start := start, stop := stop }

/-! ## Slot planner (`main._generate_slots`) -/

/-- Python `x or default` on an integer field: falsy (0) picks the default. -/
def intOr (v dflt : Int) : Int := if v = 0 then dflt else v

/-- Python `str(x or default)` on a string field: falsy (empty) picks the
default. -/
def strOr (v dflt : String) : String := if v = "" then dflt else v

/-- The body of `_generate_slots`' `while True` loop.  The loop in the source
has no a-priori bound, so the recursion carries fuel; exhausting the fuel
(`none`) models the loop not terminating. -/
def genSlotsAux (endT slotM micro brkN brkM : Int) :
    Nat → Int → Int → Int → Option (List SlotEntry)
  | 0, _, _, _ => none
  | fuel + 1, t, idx, sinceB =>
    if t + slotM > endT then some []
    else
      let entry : SlotEntry :=
        ⟨"SLOT", some idx, _fmt_hhmm t, _fmt_hhmm (t + slotM)⟩
      let t1 := t + slotM + micro
      let sb1 := sinceB + 1
      if 0 < brkN ∧ 0 < brkM ∧ brkN ≤ sb1 then
        if t1 + brkM > endT then some [entry]
        else
          match genSlotsAux endT slotM micro brkN brkM fuel (t1 + brkM) (idx + 1) 0 with
          | none => none
          | some rest =>
            some (entry :: ⟨"BREAK", none, _fmt_hhmm t1, _fmt_hhmm (t1 + brkM)⟩ :: rest)
      else
        match genSlotsAux endT slotM micro brkN brkM fuel t1 (idx + 1) sb1 with
        | none => none
        | some rest => some (entry :: rest)

/-- `main._generate_slots`: the day plan of SLOT/BREAK entries for a session.
`none` models the source loop diverging (possible only for degenerate
configurations such as a negative slot length). -/
def _generate_slots (s : SessionRow) : Option (List SlotEntry) :=
  let start := _parse_hhmm (strOr s.start_time_local "09:00")
  let end0 := _parse_hhmm (strOr s.end_time_local "17:00")
  let endT := if end0 ≤ start then start + 60 else end0
  let slotM := intOr s.slot_minutes 10
  let micro := s.micro_buffer_minutes
  let brkN := s.break_every_n
  let brkM := s.break_minutes
  genSlotsAux endT slotM micro brkN brkM ((endT - start).toNat + 1) start 0 0

/-! ## Intake stub (`main._intake_stub`) -/

/-- `schemas.IntakeRequest` (the fields the queue core reads). -/
structure IntakeRequest where
  phone : String
  name : String
  complaint_text : String
deriving DecidableEq, Repr

/-- `schemas.IntakeResult`. -/
structure IntakeResult where
  urgency : String
  intake_summary : String
  risk_score : Int
  model_used : String
deriving DecidableEq, Repr

/-- Python `sub in s` on strings. -/
def pyIn (sub s : String) : Bool := decide (List.IsInfix sub.data s.data)

/-- Python `str.lower()` (ASCII). -/
def pyLower (s : String) : String := s.map Char.toLower

/-- `main._intake_stub`: rule-based urgency classification of the complaint
text. -/
def _intake_stub (req : IntakeRequest) : IntakeResult :=
  let text := pyLower req.complaint_text
  let high_markers := ["chest pain", "difficulty breathing", "shortness of breath",
    "unconscious", "seizure", "bleeding", "severe", "pregnant and bleeding"]
  let medium_markers := ["fever", "vomit", "vomiting", "pain", "injury", "diarrhea",
    "dizziness"]
  let urgency :=
    if high_markers.any (fun m => pyIn m text) then "high"
    else if medium_markers.any (fun m => pyIn m text) then "medium"
    else "low"
  let risk_score : Int := if urgency = "high" then 9 else if urgency = "medium" then 6 else 3
  let summary0 := pyStrip req.complaint_text
  let summary := if summary0 = "" then "Patient requested OPD consultation." else summary0
  let safe_summary := "Patient-described concern: " ++ summary.take 800 ++ "\n\n" ++
    "Note: This is a descriptive intake summary. No diagnosis is provided."
  { urgency := urgency, intake_summary := safe_summary, risk_score := risk_score,
    model_used := "rules" }

/-! ## Repository helpers (the `_sb_*` query wrappers of `main.py`) -/

/-- The four states counted as active throughout `main.py`. -/
def isActive : TokenState → Bool
  | .BOOKED | .ARRIVED | .SERVING | .SKIPPED => true
  | _ => false

/-- The two terminal states. -/
def isTerminal : TokenState → Bool
  | .CANCELLED | .COMPLETED => true
  | _ => false

/-- `SELECT * FROM sessions WHERE id = sid LIMIT 1`. -/
def getSession (db : DB) (session_id : Int) : Option SessionRow :=
  db.sessions.find? (fun s => s.id == session_id)

/-- `SELECT * FROM tokens WHERE id = tid LIMIT 1`. -/
def getToken (db : DB) (token_id : Int) : Option TokenRow :=
  db.tokens.find? (fun t => t.id == token_id)

/-- `UPDATE tokens SET ... WHERE id = tid` (`_sb_update_token`): the patch `f`
is applied to every row with the given id. -/
def updTok (db : DB) (token_id : Int) (f : TokenRow → TokenRow) : DB :=
  { db with tokens := db.tokens.map (fun t => if t.id = token_id then f t else t) }

/-- `UPDATE sessions SET ... WHERE id = sid` (`_sb_update_session`). -/
def updSession (db : DB) (session_id : Int) (f : SessionRow → SessionRow) : DB :=
  { db with sessions := db.sessions.map (fun s => if s.id = session_id then f s else s) }

/-- `main._sb_get_or_create_session`: look the session up by
(clinic, doctor, date); if absent, insert one with the schema defaults of
`models.Session`. -/
def getOrCreateSession (db : DB) (clinic doctor dateKey : String) : SessionRow × DB :=
  match db.sessions.find? (fun s =>
      s.clinic_id == clinic && s.doctor_id == doctor && s.date_key == dateKey) with
  | some row => (row, db)
  | none =>
    let s : SessionRow :=
      { id := db.nextSessionId, clinic_id := clinic, doctor_id := doctor,
        date_key := dateKey, start_time_local := "17:00", end_time_local := "20:00",
        slot_minutes := 9, micro_buffer_minutes := 2, break_every_n := 6,
        break_minutes := 10, emergency_reserve_minutes := 20, planned_leave := false,
        unplanned_closed := false, emergency_debt_minutes := 0 }
    (s, { db with sessions := db.sessions ++ [s], nextSessionId := db.nextSessionId + 1 })

/-- First row of an `ORDER BY token_no ASC LIMIT 1` query over a filtered list:
the first-encountered row with minimal token number. -/
def minByTokenNo : List TokenRow → Option TokenRow
  | [] => none
  | t :: ts =>
    match minByTokenNo ts with
    | none => some t
    | some b => if b.token_no < t.token_no then some b else some t

/-- `ORDER BY token_no DESC LIMIT 1` projected to `token_no`: the maximal token
number in the session, over tokens of all states. -/
def maxTokenNo (db : DB) (session_id : Int) : Option Int :=
  (db.tokens.filter (fun t => t.session_id == session_id)).foldl
    (fun acc t =>
      match acc with
      | none => some t.token_no
      | some m => some (max m t.token_no)) none

/-- The dedupe query of `book_token`/`book_slot`: first active token of the
session with this phone, by ascending token number. -/
def firstActiveByPhone (db : DB) (session_id : Int) (phone : String) : Option TokenRow :=
  minByTokenNo (db.tokens.filter (fun t =>
    t.session_id == session_id && t.phone == phone && isActive t.state))

/-- `_sb_get_serving_token`: first token of the session in state SERVING. -/
def getServingToken (db : DB) (session_id : Int) : Option TokenRow :=
  db.tokens.find? (fun t => t.session_id == session_id && t.state == TokenState.SERVING)

/-- `_sb_get_next_eligible`: the token with the smallest token number among
states ARRIVED/BOOKED/SKIPPED. -/
def nextEligible (db : DB) (session_id : Int) : Option TokenRow :=
  minByTokenNo (db.tokens.filter (fun t =>
    t.session_id == session_id &&
      (t.state == TokenState.ARRIVED || t.state == TokenState.BOOKED ||
        t.state == TokenState.SKIPPED)))

/-- `main._sb_insert_client_event`: insert-if-new on the (client_id, event_id)
dedup key; returns whether the event was new. -/
def _sb_insert_client_event (db : DB) (session_id : Int) (client_id event_id event_type : String) :
    Bool × DB :=
  if db.client_events.any (fun e => e.client_id == client_id && e.event_id == event_id) then
    (false, db)
  else
    (true, { db with client_events :=
      db.client_events ++ [⟨session_id, client_id, event_id, event_type⟩] })

/-! ## Queue orchestrator endpoints (`main.py`)

Each endpoint returns its response (or `HTTPException`) together with the
database as left behind by the request: Supabase writes commit immediately, so
an exception raised after a write keeps that write. -/

/-- `schemas.TokenOut` (the window is kept as minutes; the source formats it
as `HH:MM` for display only). -/
structure TokenOut where
  id : Int
  token_no : Int
  phone : String
  name : String
  urgency : String
  state : TokenState
  window : ArrivalWindow
  slot_index : Option Int
  scheduled_start_local : String
  scheduled_end_local : String
deriving DecidableEq, Repr

/-- Append a freshly inserted token row and advance the id counter (the
Supabase `INSERT` into `tokens`). -/
def insertToken (db : DB) (t : TokenRow) : DB :=
  { db with tokens := db.tokens ++ [t], nextTokenId := db.nextTokenId + 1 }

/-- The token row `book_token` inserts when no active token with this phone
exists. -/
def newBookedToken (db : DB) (s : SessionRow) (body : IntakeRequest) (now : Int) : TokenRow :=
  { id := db.nextTokenId, session_id := s.id,
    token_no := match maxTokenNo db s.id with | some m => m + 1 | none => 1,
    phone := pyStrip body.phone, name := pyStrip body.name,
    urgency := (_intake_stub body).urgency,
    complaint_text := pyStrip body.complaint_text,
    intake_summary := (_intake_stub body).intake_summary, state := .BOOKED,
    slot_index := none, scheduled_start_local := "", scheduled_end_local := "",
    booked_at := now, arrived_at := none, serving_at := none, completed_at := none,
    last_state_change_at := now }

/-- Build the `TokenOut` response from a token row and its window. -/
def tokenOut (t : TokenRow) (w : ArrivalWindow) : TokenOut :=
  { id := t.id, token_no := t.token_no, phone := t.phone, name := t.name,
    urgency := t.urgency, state := t.state, window := w, slot_index := t.slot_index,
    scheduled_start_local := t.scheduled_start_local,
    scheduled_end_local := t.scheduled_end_local }

/-- `POST /api/tokens/book` (`main.book_token`).  `dateKey` stands for
`_today_key()`; `now` for the wall clock. -/
def book_token (db : DB) (clinic doctor dateKey : String) (body : IntakeRequest) (now : Int) :
    Except Fail TokenOut × DB :=
  let sdb := getOrCreateSession db clinic doctor dateKey
  let s := sdb.1
  let db1 := sdb.2
  if s.planned_leave || s.unplanned_closed then (.error (.http 409 "OPD is closed"), db1)
  else
    let phone := pyStrip body.phone
    match firstActiveByPhone db1 s.id phone with
    | some existing =>
      let position_index := max 0 (existing.token_no - 1)
      let w := compute_arrival_window s position_index now
      (.ok (tokenOut existing w), db1)
    | none =>
      let t := newBookedToken db1 s body now
      let db2 := insertToken db1 t
      let w := compute_arrival_window s (max 0 (t.token_no - 1)) now
      (.ok (tokenOut t w), db2)

/-- `schemas.BookSlotRequest`. -/
structure BookSlotRequest where
  phone : String
  name : String
  complaint_text : String
  slot_index : Int
deriving DecidableEq, Repr

/-- The candidate slot index used by `skip_token`'s search loop:
`int(x.get("slot_index") or -1)` — falsy (`None` or 0) becomes -1. -/
def candSlotIndex (x : SlotEntry) : Int :=
  match x.slot_index with
  | none => -1
  | some v => if v = 0 then -1 else v

/-- Body of `POST /api/tokens/book_slot` once the session row is resolved. -/
def bookSlotCore (s : SessionRow) (db : DB) (body : BookSlotRequest) (now : Int) :
    Except Fail TokenOut × DB :=
  if s.planned_leave || s.unplanned_closed then (.error (.http 409 "OPD is closed"), db)
  else
    let phone := pyStrip body.phone
    match firstActiveByPhone db s.id phone with
    | some existing =>
      let pos := max 0 (match existing.slot_index with
        | some si => si
        | none => existing.token_no - 1)
      let w := compute_arrival_window s pos now
      (.ok (tokenOut existing w), db)
    | none =>
      match _generate_slots s with
      | none => (.error .hang, db)
      | some slots =>
        match slots.find? (fun x =>
            x.type == "SLOT" && x.slot_index == some body.slot_index) with
        | none => (.error (.http 400 "Invalid slot"), db)
        | some wanted =>
          if db.tokens.any (fun t =>
              t.session_id == s.id && t.slot_index == some body.slot_index &&
                isActive t.state) then
            (.error (.http 409 "Slot already booked"), db)
          else
            let intake := _intake_stub
              { phone := phone, name := body.name, complaint_text := body.complaint_text }
            let token_no := body.slot_index + 1
            let t : TokenRow :=
              { id := db.nextTokenId, session_id := s.id, token_no := token_no,
                phone := phone, name := pyStrip body.name, urgency := intake.urgency,
                complaint_text := pyStrip body.complaint_text,
                intake_summary := intake.intake_summary, state := .BOOKED,
                slot_index := some body.slot_index,
                scheduled_start_local := wanted.start_local,
                scheduled_end_local := wanted.end_local, booked_at := now,
                arrived_at := none, serving_at := none, completed_at := none,
                last_state_change_at := now }
            let db2 := insertToken db t
            let w := compute_arrival_window s (max 0 body.slot_index) now
            (.ok (tokenOut t w), db2)

/-- `POST /api/tokens/book_slot` (`main.book_slot`): resolve the session either
by explicit id or by (clinic, doctor, today). -/
def book_slot (db : DB) (sessionId : Option Int) (clinic doctor dateKey : String)
    (body : BookSlotRequest) (now : Int) : Except Fail TokenOut × DB :=
  match sessionId with
  | some sid =>
    match getSession db sid with
    | none => (.error (.http 404 "Session not found"), db)
    | some s => bookSlotCore s db body now
  | none =>
    let sdb := getOrCreateSession db clinic doctor dateKey
    bookSlotCore sdb.1 sdb.2 body now

/-- `POST /api/tokens/{token_id}/arrive` (`main.mark_arrived`): idempotent
no-op on terminal tokens, otherwise transition to ARRIVED keeping the first
arrival timestamp. -/
def mark_arrived (db : DB) (token_id : Int) (now : Int) : Except Fail Unit × DB :=
  match getToken db token_id with
  | none => (.error (.http 404 "Token not found"), db)
  | some t =>
    if isTerminal t.state then (.ok (), db)
    else
      (.ok (), updTok db t.id (fun u =>
        { u with state := .ARRIVED, arrived_at := some (t.arrived_at.getD now),
                 last_state_change_at := now }))

/-- The result body of `serve_next`. -/
structure ServeResult where
  served : Option (Int × Int)
  note : Option String
deriving DecidableEq, Repr

/-- First half of `serve_next`: complete the currently serving token, if
any. -/
def serveCompleteCurrent (db : DB) (session_id now : Int) : DB :=
  match getServingToken db session_id with
  | none => db
  | some current =>
    updTok db current.id (fun u =>
      { u with state := .COMPLETED, completed_at := some now,
               last_state_change_at := now })

/-- `POST /api/queue/serve_next` (`main.serve_next`): complete the serving
token, then pick the next eligible one — serve it if it has arrived, skip it in
place if it is still BOOKED. -/
def serve_next (db : DB) (session_id : Int) (now : Int) : Except Fail ServeResult × DB :=
  match getSession db session_id with
  | none => (.error (.http 404 "Session not found"), db)
  | some s =>
    if s.unplanned_closed then (.error (.http 409 "OPD closed"), db)
    else
      let db1 := serveCompleteCurrent db session_id now
      match nextEligible db1 session_id with
      | none => (.ok { served := none, note := none }, db1)
      | some nxt =>
        if nxt.state = .BOOKED then
          (.ok { served := none, note := some "next token not arrived; skipped" },
           updTok db1 nxt.id (fun u =>
             { u with state := .SKIPPED, last_state_change_at := now }))
        else
          (.ok { served := some (nxt.id, nxt.token_no), note := none },
           updTok db1 nxt.id (fun u =>
             { u with state := .SERVING, serving_at := some now,
                      last_state_change_at := now }))

/-- `POST /api/queue/skip` (`main.skip_token`): no-op on terminal tokens;
slot-based tokens are re-slotted to the next free slot (with the source's
falsy-index quirk), number-based tokens are renumbered to max+1. -/
def skip_token (db : DB) (session_id token_id : Int) (now : Int) : Except Fail Unit × DB :=
  match getToken db token_id with
  | none => (.error (.http 404 "Token not found"), db)
  | some t =>
    if t.session_id ≠ session_id then (.error (.http 404 "Token not found"), db)
    else if isTerminal t.state then (.ok (), db)
    else
      match t.slot_index with
      | some current_si =>
        match getSession db session_id with
        | none => (.error (.http 404 "Session not found"), db)
        | some s =>
          match _generate_slots s with
          | none => (.error .hang, db)
          | some all_slots =>
            let booked_set := (db.tokens.filter (fun x =>
                x.session_id == session_id && x.id ≠ token_id && isActive x.state)).filterMap
              (fun x => x.slot_index)
            let chosen :=
              match all_slots.find? (fun x =>
                  x.type == "SLOT" && candSlotIndex x > current_si &&
                    !(booked_set.contains (candSlotIndex x))) with
              | some c => some c
              | none => all_slots.find? (fun x =>
                  x.type == "SLOT" && !(booked_set.contains (candSlotIndex x)))
            match chosen with
            | none => (.error (.http 409 "No free slots available"), db)
            | some ch =>
              let new_si := ch.slot_index.getD 0
              let new_no := new_si + 1
              (.ok (), updTok db token_id (fun u =>
                { u with state := .SKIPPED, slot_index := some new_si, token_no := new_no,
                         scheduled_start_local := ch.start_local,
                         scheduled_end_local := ch.end_local,
                         last_state_change_at := now }))
      | none =>
        let next_no := match maxTokenNo db session_id with
          | some m => m + 1
          | none => intOr t.token_no 1
        (.ok (), updTok db token_id (fun u =>
          { u with state := .SKIPPED, token_no := next_no, last_state_change_at := now }))

/-- `POST /api/queue/cancel` (`main.cancel_token`): unconditional transition to
CANCELLED — terminal tokens are not exempted. -/
def cancel_token (db : DB) (session_id token_id : Int) (now : Int) : Except Fail Unit × DB :=
  match getToken db token_id with
  | none => (.error (.http 404 "Token not found"), db)
  | some t =>
    if t.session_id ≠ session_id then (.error (.http 404 "Token not found"), db)
    else
      (.ok (), updTok db token_id (fun u =>
        { u with state := .CANCELLED, last_state_change_at := now }))

/-- `schemas.WalkInRequest`. -/
structure WalkInRequest where
  phone : String
  name : String
  complaint_text : String
  urgency : String
deriving DecidableEq, Repr

/-- `POST /api/queue/walkin` (`main.add_walkin`): staff-entered token that
starts in ARRIVED. -/
def add_walkin (db : DB) (session_id : Int) (body : WalkInRequest) (now : Int) :
    Except Fail (Int × Int) × DB :=
  match getSession db session_id with
  | none => (.error (.http 404 "Session not found"), db)
  | some _ =>
    let next_no := match maxTokenNo db session_id with | some m => m + 1 | none => 1
    let t : TokenRow :=
      { id := db.nextTokenId, session_id := session_id, token_no := next_no,
        phone := pyStrip body.phone, name := pyStrip body.name, urgency := body.urgency,
        complaint_text := pyStrip body.complaint_text,
        intake_summary := "Walk-in added by staff. No diagnosis provided.",
        state := .ARRIVED, slot_index := none, scheduled_start_local := "",
        scheduled_end_local := "", booked_at := now, arrived_at := some now,
        serving_at := none, completed_at := none, last_state_change_at := now }
    (.ok (t.id, t.token_no), insertToken db t)

/-- `POST /api/queue/emergency` (`main.trigger_emergency`): add the delay to
the session's emergency debt (the >30-minute mass notification is
presentation-only).  The HTTP schema bounds `minutes` to [5, 60]. -/
def trigger_emergency (db : DB) (session_id : Int) (minutes : Int) : Except Fail Int × DB :=
  match getSession db session_id with
  | none => (.error (.http 404 "Session not found"), db)
  | some s =>
    let debt := s.emergency_debt_minutes + minutes
    (.ok debt, updSession db session_id (fun r => { r with emergency_debt_minutes := debt }))

/-- `POST /api/sessions/{id}/close_now` (`main.close_now`): mark the session
unplanned-closed and cancel every active token. -/
def close_now (db : DB) (session_id : Int) (now : Int) : Except Fail Int × DB :=
  match getSession db session_id with
  | none => (.error (.http 404 "Session not found"), db)
  | some _ =>
    let db1 := updSession db session_id (fun s => { s with unplanned_closed := true })
    let ids := (db1.tokens.filter (fun t =>
      t.session_id == session_id && isActive t.state)).map (fun t => t.id)
    (.ok ids.length,
     ids.foldl (fun d i => updTok d i (fun u =>
       { u with state := .CANCELLED, last_state_change_at := now })) db1)

/-! ## Event replay log (`main.bulk_events`) -/

/-- `schemas.BulkEvent`: the payload dict is modelled by the two keys the
dispatcher reads. -/
structure BulkEvent where
  event_id : String
  event_type : String
  payload_token_id : Option Int
  payload_minutes : Option Int
deriving DecidableEq, Repr

/-- Result of a batch replay: the accepted count, the database as left behind,
and the exception (if the batch aborted part-way). -/
structure BulkOutcome where
  accepted : Int
  db : DB
  error : Option Fail
deriving DecidableEq, Repr

/-- Dispatch of one accepted event inside `bulk_events`.  `s` is the local
session dict the handler mutates for EMERGENCY events.  A `some` failure
aborts the whole batch (the exception propagates out of the endpoint). -/
def dispatchEvent (session_id now : Int) (s : SessionRow) (db : DB) (e : BulkEvent) :
    Option Fail × SessionRow × DB :=
  if e.event_type == "ARRIVE" then
    match e.payload_token_id with
    | none => (some (.http 500 "TypeError: int() of None"), s, db)
    | some tid =>
      if tid = 0 then (none, s, db)
      else
        match getToken db tid with
        | none => (none, s, db)
        | some t =>
          if t.session_id = session_id then
            if isTerminal t.state then (none, s, db)
            else
              (none, s, updTok db tid (fun u =>
                { u with state := .ARRIVED, arrived_at := some (t.arrived_at.getD now),
                         last_state_change_at := now }))
          else (none, s, db)
  else if e.event_type == "SERVE_NEXT" then
    let r := serve_next db session_id now
    match r.1 with
    | .error err => (some err, s, r.2)
    | .ok _ => (none, s, r.2)
  else if e.event_type == "SKIP" then
    match e.payload_token_id with
    | none => (some (.http 500 "TypeError: int() of None"), s, db)
    | some tid =>
      if tid = 0 then (none, s, db)
      else
        let r := skip_token db session_id tid now
        match r.1 with
        | .error err => (some err, s, r.2)
        | .ok _ => (none, s, r.2)
  else if e.event_type == "CANCEL" then
    match e.payload_token_id with
    | none => (some (.http 500 "TypeError: int() of None"), s, db)
    | some tid =>
      if tid = 0 then (none, s, db)
      else
        let r := cancel_token db session_id tid now
        match r.1 with
        | .error err => (some err, s, r.2)
        | .ok _ => (none, s, r.2)
  else if e.event_type == "EMERGENCY" then
    let minutes := match e.payload_minutes with | none => 10 | some m => intOr m 10
    let debt := s.emergency_debt_minutes + minutes
    (none, { s with emergency_debt_minutes := debt },
     updSession db session_id (fun r => { r with emergency_debt_minutes := debt }))
  else
    (none, s, db)

/-- The per-event loop of `bulk_events`: dedupe on (client_id, event_id), then
dispatch; duplicates are skipped entirely and not counted. -/
def bulkLoop (client_id : String) (session_id now : Int) :
    SessionRow → Int → DB → List BulkEvent → BulkOutcome
  | _, acc, db, [] => ⟨acc, db, none⟩
  | s, acc, db, e :: rest =>
    let ins := _sb_insert_client_event db session_id client_id e.event_id e.event_type
    if ins.1 then
      match dispatchEvent session_id now s ins.2 e with
      | (some err, _, db2) => ⟨acc, db2, some err⟩
      | (none, s2, db2) => bulkLoop client_id session_id now s2 (acc + 1) db2 rest
    else
      bulkLoop client_id session_id now s acc ins.2 rest

/-- `POST /api/events/bulk` (`main.bulk_events`). -/
def bulk_events (db : DB) (client_id : String) (session_id : Int) (events : List BulkEvent)
    (now : Int) : BulkOutcome :=
  match getSession db session_id with
  | none => ⟨0, db, some (.http 404 "Session not found")⟩
  | some s => bulkLoop client_id session_id now s 0 db events

/-! ## Operation sequences -/

/-- One invocation of a public queue operation, with its request payload. -/
inductive Op where
  | book (clinic doctor dateKey : String) (body : IntakeRequest)
  | bookSlot (sessionId : Option Int) (clinic doctor dateKey : String) (body : BookSlotRequest)
  | walkin (sessionId : Int) (body : WalkInRequest)
  | arrive (tokenId : Int)
  | serveNext (sessionId : Int)
  | skip (sessionId tokenId : Int)
  | cancel (sessionId tokenId : Int)
  | emergency (sessionId : Int) (minutes : Int)
  | closeNow (sessionId : Int)
  | bulk (clientId : String) (sessionId : Int) (events : List BulkEvent)
deriving DecidableEq, Repr

/-- The database left behind by one operation (responses and errors
discarded). -/
def applyOp (op : Op) (now : Int) (db : DB) : DB :=
  match op with
  | .book clinic doctor dateKey body => (book_token db clinic doctor dateKey body now).2
  | .bookSlot sid clinic doctor dateKey body =>
    (book_slot db sid clinic doctor dateKey body now).2
  | .walkin sid body => (add_walkin db sid body now).2
  | .arrive tid => (mark_arrived db tid now).2
  | .serveNext sid => (serve_next db sid now).2
  | .skip sid tid => (skip_token db sid tid now).2
  | .cancel sid tid => (cancel_token db sid tid now).2
  | .emergency sid minutes => (trigger_emergency db sid minutes).2
  | .closeNow sid => (close_now db sid now).2
  | .bulk cid sid events => (bulk_events db cid sid events now).db

/-- Sequential execution of a list of operations, each with the wall-clock
instant at which it runs. -/
def applyOps (db : DB) : List (Op × Int) → DB
  | [] => db
  | (op, now) :: rest => applyOps (applyOp op now db) rest

/-! ## Invariant vocabulary -/

/-- Number of tokens of a session currently in state SERVING. -/
def servingCount (db : DB) (sid : Int) : Nat :=
  db.tokens.countP (fun t => t.session_id == sid && t.state == TokenState.SERVING)

/-- Well-formedness the operations maintain: token ids are pairwise distinct
and below the id counter, and every session has at most one SERVING token. -/
def QueueInv (db : DB) : Prop :=
  (db.tokens.map (fun t => t.id)).Nodup ∧
  (∀ t ∈ db.tokens, t.id < db.nextTokenId) ∧
  (∀ sid, servingCount db sid ≤ 1)

/-- Every session's emergency debt is nonnegative. -/
def DebtInv (db : DB) : Prop :=
  ∀ s ∈ db.sessions, 0 ≤ s.emergency_debt_minutes

/-- A replay event whose EMERGENCY payload (when present) is nonnegative — the
HTTP endpoint enforces 5–60, but the bulk path applies the payload raw. -/
def goodEvent (e : BulkEvent) : Prop :=
  ∀ m, e.payload_minutes = some m → 0 ≤ m

/-- Request-level validation: `trigger_emergency` minutes pass the schema
bound 5–60, and bulk EMERGENCY payloads are nonnegative. -/
def goodOp : Op → Prop
  | .emergency _ m => 5 ≤ m ∧ m ≤ 60
  | .bulk _ _ events => ∀ e ∈ events, goodEvent e
  | _ => True

/-! ## Concrete fixtures used by witnesses and counterexamples -/

/-- A session with the schema defaults of `models.Session`. -/
def exSession : SessionRow :=
  { id := 1, clinic_id := "c", doctor_id := "d", date_key := "2026-10-12",
    start_time_local := "17:00", end_time_local := "20:00", slot_minutes := 9,
    micro_buffer_minutes := 2, break_every_n := 6, break_minutes := 10,
    emergency_reserve_minutes := 20, planned_leave := false, unplanned_closed := false,
    emergency_debt_minutes := 0 }

/-- The session of the spec's worked estimator scenario: 10-minute slots, no
buffer, no breaks, reserve 20. -/
def exSessionNB : SessionRow :=
  { exSession with slot_minutes := 10, micro_buffer_minutes := 0, break_every_n := 0 }

/-- A number-based token that was booked and never arrived. -/
def exTokenBooked : TokenRow :=
  { id := 1, session_id := 1, token_no := 1, phone := "p1", name := "", urgency := "low",
    complaint_text := "", intake_summary := "", state := .BOOKED, slot_index := none,
    scheduled_start_local := "", scheduled_end_local := "", booked_at := 0,
    arrived_at := none, serving_at := none, completed_at := none, last_state_change_at := 0 }

/-- A token behind it that has arrived. -/
def exTokenArrived : TokenRow :=
  { exTokenBooked with
      id := 2, token_no := 2, phone := "p2", state := .ARRIVED, arrived_at := some 0 }

/-- A token in the terminal state COMPLETED. -/
def exTokenDone : TokenRow :=
  { exTokenBooked with
      id := 3, token_no := 3, phone := "p3", state := .COMPLETED, arrived_at := some 0,
      serving_at := some 1, completed_at := some 2 }

/-- A database with just the default session and no tokens. -/
def exDbSession : DB :=
  { sessions := [exSession], tokens := [], client_events := [], nextSessionId := 2,
    nextTokenId := 1 }

/-- Queue state for the serve-next scenario: BOOKED token 1 ahead of ARRIVED
token 2. -/
def exDbServe : DB :=
  { sessions := [exSession], tokens := [exTokenBooked, exTokenArrived],
    client_events := [], nextSessionId := 2, nextTokenId := 3 }

/-- Database holding only a COMPLETED (terminal) token. -/
def exDbTerm : DB :=
  { sessions := [exSession], tokens := [exTokenDone], client_events := [],
    nextSessionId := 2, nextTokenId := 4 }

/-- An EMERGENCY replay event carrying a negative `minutes` payload. -/
def exEventEmergNeg : BulkEvent :=
  { event_id := "e1", event_type := "EMERGENCY", payload_token_id := none,
    payload_minutes := some (-50) }

/-- A well-formed EMERGENCY replay event (+10 minutes). -/
def exEventEmerg : BulkEvent :=
  { event_id := "e2", event_type := "EMERGENCY", payload_token_id := none,
    payload_minutes := some 10 }

/-- An ARRIVE replay event addressed at token 3. -/
def exEventArr : BulkEvent :=
  { event_id := "a1", event_type := "ARRIVE", payload_token_id := some 3,
    payload_minutes := none }

/-- A booking request body. -/
def exBody : IntakeRequest := { phone := "9991234", name := "A", complaint_text := "fever" }

/-! ## Claim theorems -/

/-- Rewriting `estimate_call_time` with the debt isolated: the estimate is
`now` plus a debt-independent load term plus the overflow debt. -/
theorem estimate_call_time_debt_form (s : SessionRow) (d p now : Int) :
    estimate_call_time { s with emergency_debt_minutes := d } p now =
      now + (p * (s.slot_minutes + s.micro_buffer_minutes) +
        _breaks_before_position s p * s.break_minutes +
        (max 0 d - min s.emergency_reserve_minutes (max 0 d))) := rfl

/-- C3: for every session with a nonnegative emergency reserve (the schema
default is 20 and no operation ever writes the reserve), any debt at most the
reserve produces the same estimate as zero debt, and debt `reserve + K`
(`K ≥ 0`) shifts the estimate by exactly `K` minutes, uniformly over every
position index and clock instant. -/
theorem estimate_call_time_debt_shift (s : SessionRow)
    (hres : 0 ≤ s.emergency_reserve_minutes) :
    (∀ d p now, d ≤ s.emergency_reserve_minutes →
      estimate_call_time { s with emergency_debt_minutes := d } p now =
        estimate_call_time { s with emergency_debt_minutes := 0 } p now) ∧
    (∀ K p now, 0 ≤ K →
      estimate_call_time
          { s with emergency_debt_minutes := s.emergency_reserve_minutes + K } p now =
        estimate_call_time
          { s with emergency_debt_minutes := s.emergency_reserve_minutes } p now + K) := by
  constructor
  · intro d p now hd
    rw [estimate_call_time_debt_form, estimate_call_time_debt_form]
    have h1 : max 0 d - min s.emergency_reserve_minutes (max 0 d) =
        max 0 0 - min s.emergency_reserve_minutes (max 0 0) := by omega
    rw [h1]
  · intro K p now hK
    rw [estimate_call_time_debt_form, estimate_call_time_debt_form]
    have h2 : max 0 (s.emergency_reserve_minutes + K) -
        min s.emergency_reserve_minutes (max 0 (s.emergency_reserve_minutes + K)) =
        (max 0 s.emergency_reserve_minutes -
          min s.emergency_reserve_minutes (max 0 s.emergency_reserve_minutes)) + K := by
      omega
    rw [h2]; ring

/-- Witness for C3 at the spec's worked scenario (reserve 20): debt 15 equals
debt 0, and debt 27 = reserve + 7 is exactly 7 minutes later than debt 20. -/
theorem estimate_call_time_debt_shift_witness :
    (estimate_call_time { exSessionNB with emergency_debt_minutes := 15 } 3 0 =
      estimate_call_time { exSessionNB with emergency_debt_minutes := 0 } 3 0) ∧
    (estimate_call_time { exSessionNB with emergency_debt_minutes := 20 + 7 } 3 0 =
      estimate_call_time { exSessionNB with emergency_debt_minutes := 20 } 3 0 + 7) :=
  ⟨(estimate_call_time_debt_shift exSessionNB (by decide)).1 15 3 0 (by decide),
   (estimate_call_time_debt_shift exSessionNB (by decide)).2 7 3 0 (by decide)⟩

/-- C6: the arrival window's end is never earlier than `now + 5`, and whenever
the symmetric band around the estimate would end before `now + 5` the window is
replaced by `[now+5, now+5+width]`, with width 20 normally and 30 under
positive emergency debt. -/
theorem compute_arrival_window_floor (s : SessionRow) (p now : Int) :
    now + 5 ≤ (compute_arrival_window s p now).stop ∧
    (estimate_call_time s p now +
        (if s.emergency_debt_minutes > 0 then (30 : Int) else 20) / 2 < now + 5 →
      compute_arrival_window s p now =
        { start := now + 5,
          stop := now + 5 + (if s.emergency_debt_minutes > 0 then (30 : Int) else 20) }) := by
  unfold compute_arrival_window
  set call := estimate_call_time s p now with hcall
  set w : Int := if s.emergency_debt_minutes > 0 then (30 : Int) else 20 with hw
  have hwpos : 0 < w := by rw [hw]; split <;> omega
  by_cases h : call + w / 2 < now + 5
  · simp only [if_pos h]
    exact ⟨by omega, fun _ => trivial⟩
  · simp only [if_neg h]
    exact ⟨by omega, fun hc => absurd hc h⟩

/-- Witness for C6: with debt 0 and a negative position index the raw band ends
before `now + 5`, so the fallback window `[now+5, now+25]` is returned. -/
theorem compute_arrival_window_floor_witness :
    (1000 : Int) + 5 ≤ (compute_arrival_window exSession (-5) 1000).stop ∧
    compute_arrival_window exSession (-5) 1000 =
      { start := 1000 + 5, stop := 1000 + 5 + 20 } := by
  have h := compute_arrival_window_floor exSession (-5) 1000
  refine ⟨h.1, ?_⟩
  have h2 := h.2 (by decide)
  simpa using h2

/-- C10: `_parse_hhmm` is total with range [0, 1439]; empty, malformed or
non-numeric strings map to 0, while parseable but out-of-range components are
clamped (hour into [0,23], minute into [0,59]) — "25:99" yields 23:59's offset
1439, not 0. -/
theorem parse_hhmm_total_range :
    (∀ s, 0 ≤ _parse_hhmm s ∧ _parse_hhmm s ≤ 1439) ∧
    _parse_hhmm "" = 0 ∧ _parse_hhmm "   " = 0 ∧ _parse_hhmm "abc" = 0 ∧
    _parse_hhmm "ab:cd" = 0 ∧ _parse_hhmm "10" = 0 ∧ _parse_hhmm "10:20:30" = 0 ∧
    _parse_hhmm "25:99" = 1439 ∧ _parse_hhmm "-3:30" = 30 ∧ _parse_hhmm "09:30" = 570 := by
  refine ⟨?_, by decide, by decide, by decide, by decide, by decide, by decide,
    by decide, by decide, by decide⟩
  intro s
  simp only [_parse_hhmm]
  split
  · omega
  · split
    · split
      · omega
      · omega
    · omega

/-- Fuel lemma for the slot-planner loop: with a positive slot length and a
nonnegative micro-buffer, every iteration advances the cursor by at least one
minute, so fuel exceeding the remaining window suffices. -/
theorem genSlotsAux_isSome (endT slotM micro brkN brkM : Int)
    (hslot : 1 ≤ slotM) (hmicro : 0 ≤ micro) :
    ∀ (fuel : Nat) (t idx sinceB : Int), (endT - t).toNat < fuel →
      (genSlotsAux endT slotM micro brkN brkM fuel t idx sinceB).isSome := by
  intro fuel
  induction fuel with
  | zero => intro t idx sb h; omega
  | succ n ih =>
    intro t idx sb h
    unfold genSlotsAux
    split
    · simp
    · rename_i hfit
      simp only
      split
      · rename_i hbrk
        split
        · simp
        · rename_i hbfit
          have hlt : (endT - (t + slotM + micro + brkM)).toNat < n := by omega
          have h2 := ih (t + slotM + micro + brkM) (idx + 1) 0 hlt
          rcases Option.isSome_iff_exists.mp h2 with ⟨rest, hrest⟩
          rw [hrest]
          simp
      · have hlt : (endT - (t + slotM + micro)).toNat < n := by omega
        have h2 := ih (t + slotM + micro) (idx + 1) (sb + 1) hlt
        rcases Option.isSome_iff_exists.mp h2 with ⟨rest, hrest⟩
        rw [hrest]
        simp

/-- C9: for any session configuration with `slot_minutes ≥ 1` and
`micro_buffer_minutes ≥ 0`, the slot planner terminates with a finite list:
the walk over the bounded day window is well-founded because every iteration
strictly advances the cursor. -/
theorem generate_slots_total (s : SessionRow)
    (hslot : 1 ≤ s.slot_minutes) (hmicro : 0 ≤ s.micro_buffer_minutes) :
    ∃ l, _generate_slots s = some l := by
  have hint : intOr s.slot_minutes 10 = s.slot_minutes := by
    unfold intOr; rw [if_neg (by omega)]
  apply Option.isSome_iff_exists.mp
  unfold _generate_slots
  apply genSlotsAux_isSome
  · rw [hint]; exact hslot
  · exact hmicro
  · omega

/-- Witness for C9: the default session (9-minute slots, 2-minute buffer)
produces a slot list. -/
theorem generate_slots_total_witness : ∃ l, _generate_slots exSession = some l :=
  generate_slots_total exSession (by decide) (by decide)

/-- A non-empty token list always yields a minimum. -/
theorem minByTokenNo_cons_isSome (t : TokenRow) (ts : List TokenRow) :
    (minByTokenNo (t :: ts)).isSome := by
  show (match minByTokenNo ts with
    | none => some t
    | some b => if b.token_no < t.token_no then some b else some t).isSome
  cases minByTokenNo ts with
  | none => rfl
  | some b =>
    show (if b.token_no < t.token_no then some b else some t).isSome
    split <;> rfl

/-- `minByTokenNo` returns `none` only on the empty list. -/
theorem minByTokenNo_eq_none {l : List TokenRow} (h : minByTokenNo l = none) : l = [] := by
  cases l with
  | nil => rfl
  | cons t ts => have := minByTokenNo_cons_isSome t ts; rw [h] at this; simp at this

/-- `find?` skips over a prefix in which nothing matches. -/
theorem find?_append_none {α} (p : α → Bool) (l₁ l₂ : List α) (h : l₁.find? p = none) :
    (l₁ ++ l₂).find? p = l₂.find? p := by
  induction l₁ with
  | nil => simp
  | cons x xs ih =>
    rw [List.find?_eq_none] at h
    have hx : p x = false := by
      have := h x (by simp)
      simp [this]
    rw [List.cons_append, List.find?_cons_of_neg _ (by simp [hx])]
    exact ih (List.find?_eq_none.mpr (fun a ha => h a (by simp [ha])))

/-- Re-running `_sb_get_or_create_session` against any database whose sessions
table equals the one it left behind returns the same session row and performs
no insert. -/
theorem getOrCreateSession_stable (db db2 : DB) (clinic doctor dateKey : String)
    (hs : db2.sessions = (getOrCreateSession db clinic doctor dateKey).2.sessions) :
    getOrCreateSession db2 clinic doctor dateKey =
      ((getOrCreateSession db clinic doctor dateKey).1, db2) := by
  unfold getOrCreateSession at hs ⊢
  cases hfind : db.sessions.find? (fun s =>
      s.clinic_id == clinic && s.doctor_id == doctor && s.date_key == dateKey) with
  | some row =>
    rw [hfind] at hs
    simp only at hs
    rw [hs, hfind]
  | none =>
    rw [hfind] at hs
    simp only at hs
    rw [hs, find?_append_none _ _ _ hfind]
    simp

/-- After appending an active token with the queried phone to a database in
which the dedupe query was empty, the dedupe query finds exactly that token. -/
theorem firstActiveByPhone_append (dbA db2 : DB) (sId : Int) (phone : String) (tok : TokenRow)
    (htoks : db2.tokens = dbA.tokens ++ [tok])
    (hnone : firstActiveByPhone dbA sId phone = none)
    (hsess : tok.session_id = sId) (hphone : tok.phone = phone)
    (hact : isActive tok.state = true) :
    firstActiveByPhone db2 sId phone = some tok := by
  unfold firstActiveByPhone at hnone ⊢
  rw [htoks, List.filter_append, minByTokenNo_eq_none hnone]
  simp [hsess, hphone, hact, minByTokenNo]

/-- When the dedupe query hits, `book_token` returns that token with a freshly
computed window and leaves the database untouched. -/
theorem book_again_of_existing (db2 : DB) (clinic doctor dateKey : String)
    (body : IntakeRequest) (now2 : Int) (s : SessionRow) (tok : TokenRow)
    (hg : getOrCreateSession db2 clinic doctor dateKey = (s, db2))
    (hopen : ¬((s.planned_leave || s.unplanned_closed) = true))
    (hfa : firstActiveByPhone db2 s.id (pyStrip body.phone) = some tok) :
    book_token db2 clinic doctor dateKey body now2 =
      (.ok (tokenOut tok (compute_arrival_window s (max 0 (tok.token_no - 1)) now2)), db2) := by
  simp only [book_token, hg]
  rw [if_neg hopen, hfa]

/-- C2: booking is idempotent per phone per session.  If one `book` call
succeeded, booking the same phone again returns a token with the same id and
token number and leaves the database completely unchanged — no second active
token is ever created. -/
theorem book_token_idempotent (db : DB) (clinic doctor dateKey : String)
    (body : IntakeRequest) (now1 now2 : Int) (o1 : TokenOut) (db1 : DB)
    (h : book_token db clinic doctor dateKey body now1 = (.ok o1, db1)) :
    ∃ o2, book_token db1 clinic doctor dateKey body now2 = (.ok o2, db1) ∧
      o2.id = o1.id ∧ o2.token_no = o1.token_no := by
  simp only [book_token] at h
  split at h
  · simp at h
  · rename_i hopen
    split at h
    · rename_i existing heq
      simp only [Prod.mk.injEq, Except.ok.injEq] at h
      obtain ⟨ho, hdb⟩ := h
      have hg := getOrCreateSession_stable db db1 clinic doctor dateKey (by rw [← hdb])
      have hfa : firstActiveByPhone db1
          (getOrCreateSession db clinic doctor dateKey).1.id (pyStrip body.phone) =
            some existing := by
        rw [← hdb]; exact heq
      refine ⟨_, book_again_of_existing db1 clinic doctor dateKey body now2 _ existing
        hg hopen hfa, ?_, ?_⟩
      · rw [← ho]; rfl
      · rw [← ho]; rfl
    · rename_i heq
      simp only [Prod.mk.injEq, Except.ok.injEq] at h
      obtain ⟨ho, hdb⟩ := h
      have hg := getOrCreateSession_stable db db1 clinic doctor dateKey
        (by rw [← hdb]; rfl)
      have hfa := firstActiveByPhone_append (getOrCreateSession db clinic doctor dateKey).2 db1
        (getOrCreateSession db clinic doctor dateKey).1.id (pyStrip body.phone)
        (newBookedToken (getOrCreateSession db clinic doctor dateKey).2
          (getOrCreateSession db clinic doctor dateKey).1 body now1)
        (by rw [← hdb]; rfl) heq rfl rfl rfl
      refine ⟨_, book_again_of_existing db1 clinic doctor dateKey body now2 _ _
        hg hopen hfa, ?_, ?_⟩
      · rw [← ho]; rfl
      · rw [← ho]; rfl

/-- Witness for C2: booking the same phone twice against the default session
returns token id 1 / number 1 both times with no database change. -/
theorem book_token_idempotent_witness :
    ∃ o2, book_token (book_token exDbSession "c" "d" "2026-10-12" exBody 0).2
        "c" "d" "2026-10-12" exBody 1 =
      (.ok o2, (book_token exDbSession "c" "d" "2026-10-12" exBody 0).2) ∧
      o2.id = 1 ∧ o2.token_no = 1 := by
  exact book_token_idempotent exDbSession "c" "d" "2026-10-12" exBody 0 1 _ _ rfl

/-- A token-table update whose patch preserves a projection `g` leaves the
`g`-image of the table unchanged. -/
theorem updTok_map_eq {β : Type} (db : DB) (tid : Int) (f : TokenRow → TokenRow)
    (g : TokenRow → β) (hpres : ∀ t, g (f t) = g t) :
    (updTok db tid f).tokens.map g = db.tokens.map g := by
  unfold updTok
  simp only
  rw [List.map_map]
  apply List.map_congr_left
  intro t _
  simp only [Function.comp]
  split
  · exact hpres t
  · rfl

/-- Updating by id rewrites the row `getToken` finds, provided the patch keeps
the id. -/
theorem find?_id_map_upd (l : List TokenRow) (tid : Int) (f : TokenRow → TokenRow)
    (hid : ∀ t, (f t).id = t.id) (t : TokenRow)
    (h : l.find? (fun u => u.id == tid) = some t) :
    (l.map (fun u => if u.id = tid then f u else u)).find? (fun u => u.id == tid) =
      some (f t) := by
  induction l with
  | nil => simp at h
  | cons x xs ih =>
    by_cases hx : x.id = tid
    · rw [List.find?_cons_of_pos _ (by simp [hx])] at h
      simp only [Option.some.injEq] at h
      subst h
      simp only [List.map_cons, if_pos hx]
      rw [List.find?_cons_of_pos _ (by simp [hid, hx])]
    · rw [List.find?_cons_of_neg _ (by simp [hx])] at h
      simp only [List.map_cons, if_neg hx]
      rw [List.find?_cons_of_neg _ (by simp [hx])]
      exact ih h

/-- C5 counterexample: `serve_next` on a session whose next eligible token is
BOOKED (number-based, token 1, with token 2 also present so the back of the
line is number 3) leaves the skipped token's number at 1 — it does **not**
apply the skip side effect, unlike the explicit skip endpoint, which renumbers
the same token to 3. -/
theorem serve_next_booked_counterexample :
    (getToken (serve_next exDbServe 1 50).2 1).map (fun t => (t.state, t.token_no)) =
      some (TokenState.SKIPPED, 1) ∧
    (getToken (skip_token exDbServe 1 1 99).2 1).map (fun t => (t.state, t.token_no)) =
      some (TokenState.SKIPPED, 3) ∧
    (1 : Int) ≠ 3 :=
  ⟨rfl, rfl, by decide⟩

/-- C5 (amended): when `serve_next`'s next eligible token is still BOOKED, no
token is served: the operation reports "no one served, next skipped" and the
token transitions to SKIPPED **in place** — its token number and slot index
(and every other token's) are unchanged; no re-slotting or renumbering
happens. -/
theorem serve_next_booked_skips_in_place (db : DB) (session_id now : Int)
    (s : SessionRow) (nxt : TokenRow)
    (hs : getSession db session_id = some s)
    (hopen : s.unplanned_closed = false)
    (hnxt : nextEligible (serveCompleteCurrent db session_id now) session_id = some nxt)
    (hbooked : nxt.state = .BOOKED) :
    serve_next db session_id now =
      (.ok { served := none, note := some "next token not arrived; skipped" },
       updTok (serveCompleteCurrent db session_id now) nxt.id
         (fun u => { u with state := .SKIPPED, last_state_change_at := now })) ∧
    (serve_next db session_id now).2.tokens.map (fun t => (t.token_no, t.slot_index)) =
      (serveCompleteCurrent db session_id now).tokens.map
        (fun t => (t.token_no, t.slot_index)) := by
  have h1 : serve_next db session_id now =
      (.ok { served := none, note := some "next token not arrived; skipped" },
       updTok (serveCompleteCurrent db session_id now) nxt.id
         (fun u => { u with state := .SKIPPED, last_state_change_at := now })) := by
    simp only [serve_next, hs]
    rw [if_neg (by simp [hopen]), hnxt]
    dsimp only
    rw [if_pos hbooked]
  refine ⟨h1, ?_⟩
  rw [h1]
  exact updTok_map_eq _ _ _ _ (fun t => rfl)

/-- Witness for C5's amended claim at the concrete two-token queue. -/
theorem serve_next_booked_skips_in_place_witness :
    serve_next exDbServe 1 50 =
      (.ok { served := none, note := some "next token not arrived; skipped" },
       updTok (serveCompleteCurrent exDbServe 1 50) exTokenBooked.id
         (fun u => { u with state := .SKIPPED, last_state_change_at := 50 })) ∧
    (serve_next exDbServe 1 50).2.tokens.map (fun t => (t.token_no, t.slot_index)) =
      (serveCompleteCurrent exDbServe 1 50).tokens.map
        (fun t => (t.token_no, t.slot_index)) :=
  serve_next_booked_skips_in_place exDbServe 1 50 exSession exTokenBooked rfl rfl rfl rfl

/-- C7 counterexample: `cancel` applied to a token in terminal state COMPLETED
does change it — the state becomes CANCELLED — so "every queue operation leaves
a terminal token unchanged" is false (the operation does succeed silently). -/
theorem cancel_terminal_counterexample :
    (getToken exDbTerm 3).map (fun t => t.state) = some TokenState.COMPLETED ∧
    (cancel_token exDbTerm 1 3 5).1 = .ok () ∧
    (getToken (cancel_token exDbTerm 1 3 5).2 3).map (fun t => t.state) =
      some TokenState.CANCELLED ∧
    TokenState.CANCELLED ≠ TokenState.COMPLETED :=
  ⟨rfl, rfl, rfl, by decide⟩

/-- C7 (amended): on a terminal (CANCELLED or COMPLETED) token, `mark_arrived`,
`skip` and a replayed ARRIVE event succeed silently and leave the database
completely unchanged; `cancel` (and hence a replayed CANCEL event) also
succeeds silently but unconditionally rewrites the token to CANCELLED with a
fresh last-state-change timestamp, leaving its identity fields (id, number,
phone, slot) and every other token untouched. -/
theorem terminal_token_ops (db : DB) (session_id token_id now : Int) (t : TokenRow)
    (ht : getToken db token_id = some t)
    (hterm : isTerminal t.state = true)
    (hsess : t.session_id = session_id) :
    mark_arrived db token_id now = (.ok (), db) ∧
    skip_token db session_id token_id now = (.ok (), db) ∧
    (∀ s e, e.event_type = "ARRIVE" → e.payload_token_id = some token_id →
      dispatchEvent session_id now s db e = (none, s, db)) ∧
    cancel_token db session_id token_id now =
      (.ok (), updTok db token_id (fun u =>
        { u with state := .CANCELLED, last_state_change_at := now })) ∧
    getToken (cancel_token db session_id token_id now).2 token_id =
      some { t with state := .CANCELLED, last_state_change_at := now } ∧
    (cancel_token db session_id token_id now).2.tokens.map
        (fun u => (u.id, u.token_no, u.phone, u.slot_index)) =
      db.tokens.map (fun u => (u.id, u.token_no, u.phone, u.slot_index)) := by
  have hcancel : cancel_token db session_id token_id now =
      (.ok (), updTok db token_id (fun u =>
        { u with state := .CANCELLED, last_state_change_at := now })) := by
    simp only [cancel_token, ht]
    rw [if_neg (by simp [hsess])]
  refine ⟨?_, ?_, ?_, hcancel, ?_, ?_⟩
  · simp only [mark_arrived, ht]
    rw [if_pos hterm]
  · simp only [skip_token, ht]
    rw [if_neg (by simp [hsess]), if_pos hterm]
  · intro s e he hp
    simp only [dispatchEvent, he, hp]
    rw [if_pos (by simp)]
    by_cases htid : token_id = 0
    · rw [if_pos htid]
    · rw [if_neg htid]
      simp only [ht]
      rw [if_pos hsess, if_pos hterm]
  · rw [hcancel]
    exact find?_id_map_upd db.tokens token_id
      (fun u => { u with state := .CANCELLED, last_state_change_at := now })
      (fun _ => rfl) t ht
  · rw [hcancel]
    exact updTok_map_eq _ _ _ _ (fun _ => rfl)

/-- Witness for C7's amended claim at the COMPLETED token 3. -/
theorem terminal_token_ops_witness :
    mark_arrived exDbTerm 3 5 = (.ok (), exDbTerm) ∧
    skip_token exDbTerm 1 3 5 = (.ok (), exDbTerm) ∧
    dispatchEvent 1 5 exSession exDbTerm exEventArr = (none, exSession, exDbTerm) ∧
    cancel_token exDbTerm 1 3 5 =
      (.ok (), updTok exDbTerm 3 (fun u =>
        { u with state := .CANCELLED, last_state_change_at := 5 })) ∧
    getToken (cancel_token exDbTerm 1 3 5).2 3 =
      some { exTokenDone with state := .CANCELLED, last_state_change_at := 5 } ∧
    (cancel_token exDbTerm 1 3 5).2.tokens.map
        (fun u => (u.id, u.token_no, u.phone, u.slot_index)) =
      exDbTerm.tokens.map (fun u => (u.id, u.token_no, u.phone, u.slot_index)) := by
  have h := terminal_token_ops exDbTerm 1 3 5 exTokenDone rfl rfl rfl
  exact ⟨h.1, h.2.1, h.2.2.1 exSession exEventArr rfl rfl, h.2.2.2.1, h.2.2.2.2.1,
    h.2.2.2.2.2⟩


/-- Completing the serving token touches only the tokens table. -/
theorem serveCompleteCurrent_client_events (db : DB) (sid now : Int) :
    (serveCompleteCurrent db sid now).client_events = db.client_events := by
  unfold serveCompleteCurrent
  split <;> rfl

/-- Completing the serving token leaves the sessions table unchanged. -/
theorem serveCompleteCurrent_sessions (db : DB) (sid now : Int) :
    (serveCompleteCurrent db sid now).sessions = db.sessions := by
  unfold serveCompleteCurrent
  split <;> rfl

/-- `serve_next` never writes the client-event log. -/
theorem serve_next_client_events (db : DB) (sid now : Int) :
    ((serve_next db sid now).2).client_events = db.client_events := by
  simp only [serve_next]
  repeat' split
  all_goals first
    | rfl
    | exact serveCompleteCurrent_client_events db sid now

/-- `serve_next` never writes the sessions table. -/
theorem serve_next_sessions (db : DB) (sid now : Int) :
    ((serve_next db sid now).2).sessions = db.sessions := by
  simp only [serve_next]
  repeat' split
  all_goals first
    | rfl
    | exact serveCompleteCurrent_sessions db sid now

/-- `skip_token` never writes the client-event log. -/
theorem skip_token_client_events (db : DB) (sid tid now : Int) :
    ((skip_token db sid tid now).2).client_events = db.client_events := by
  simp only [skip_token]
  repeat' split
  all_goals rfl

/-- `skip_token` never writes the sessions table. -/
theorem skip_token_sessions (db : DB) (sid tid now : Int) :
    ((skip_token db sid tid now).2).sessions = db.sessions := by
  simp only [skip_token]
  repeat' split
  all_goals rfl

/-- `cancel_token` never writes the client-event log. -/
theorem cancel_token_client_events (db : DB) (sid tid now : Int) :
    ((cancel_token db sid tid now).2).client_events = db.client_events := by
  simp only [cancel_token]
  repeat' split
  all_goals rfl

/-- `cancel_token` never writes the sessions table. -/
theorem cancel_token_sessions (db : DB) (sid tid now : Int) :
    ((cancel_token db sid tid now).2).sessions = db.sessions := by
  simp only [cancel_token]
  repeat' split
  all_goals rfl

/-- Dispatching one replay event never touches the client-event log: only the
dedupe insert in front of it does. -/
theorem dispatchEvent_client_events (sid now : Int) (s : SessionRow) (db : DB) (e : BulkEvent) :
    ((dispatchEvent sid now s db e).2.2).client_events = db.client_events := by
  simp only [dispatchEvent]
  repeat' split
  all_goals first
    | rfl
    | exact serve_next_client_events db sid now
    | exact skip_token_client_events db sid _ now
    | exact cancel_token_client_events db sid _ now

/-- A conditional in-place map that preserves the predicate keeps `find?`
succeeding or failing alike. -/
theorem find?_isSome_map_cond {α} (l : List α) (p : α → Bool) (g : α → α) (q : α → Prop)
    [DecidablePred q] (hp : ∀ a, p (g a) = p a) :
    ((l.map (fun a => if q a then g a else a)).find? p).isSome = (l.find? p).isSome := by
  induction l with
  | nil => rfl
  | cons x xs ih =>
    simp only [List.map_cons]
    by_cases hpx : p x = true
    · have h1 : p (if q x then g x else x) = true := by
        split
        · rw [hp]; exact hpx
        · exact hpx
      rw [List.find?_cons_of_pos _ h1, List.find?_cons_of_pos _ hpx]
      rfl
    · have h1 : ¬ p (if q x then g x else x) = true := by
        split
        · rw [hp]; exact hpx
        · exact hpx
      rw [List.find?_cons_of_neg _ h1, List.find?_cons_of_neg _ hpx]
      exact ih

/-- `getSession` depends only on the sessions table. -/
theorem getSession_congr (db1 db2 : DB) (sid : Int) (h : db1.sessions = db2.sessions) :
    getSession db1 sid = getSession db2 sid := by
  unfold getSession
  rw [h]

/-- A session update by id preserves existence of every session. -/
theorem getSession_isSome_updSession (db : DB) (sid sid2 : Int) (f : SessionRow → SessionRow)
    (hid : ∀ s, (f s).id = s.id) :
    (getSession (updSession db sid f) sid2).isSome = (getSession db sid2).isSome := by
  unfold getSession updSession
  simp only
  exact find?_isSome_map_cond db.sessions (fun s => s.id == sid2) f (fun s => s.id = sid)
    (fun a => by simp only [hid])

/-- Dispatching one replay event preserves existence of every session. -/
theorem dispatchEvent_session_isSome (sid now : Int) (s : SessionRow) (db : DB) (e : BulkEvent)
    (sid2 : Int) :
    (getSession (dispatchEvent sid now s db e).2.2 sid2).isSome =
      (getSession db sid2).isSome := by
  simp only [dispatchEvent]
  repeat' split
  all_goals first
    | rfl
    | (rw [getSession_congr _ db sid2 (serve_next_sessions db sid now)])
    | (rw [getSession_congr _ db sid2 (skip_token_sessions db sid _ now)])
    | (rw [getSession_congr _ db sid2 (cancel_token_sessions db sid _ now)])
    | (exact getSession_isSome_updSession db sid sid2 _ (fun _ => rfl))

/-- Once the (client_id, event_id) key is recorded, any number of replays of
the same event are skipped entirely: no state change, nothing counted. -/
theorem bulkLoop_skip_all (cid : String) (sid now : Int) (e : BulkEvent) :
    ∀ (n : Nat) (s : SessionRow) (acc : Int) (db : DB),
      db.client_events.any (fun ev => ev.client_id == cid && ev.event_id == e.event_id) = true →
      bulkLoop cid sid now s acc db (List.replicate n e) = ⟨acc, db, none⟩ := by
  intro n
  induction n with
  | zero => intro s acc db _; rfl
  | succ m ih =>
    intro s acc db h
    rw [List.replicate_succ]
    show bulkLoop cid sid now s acc db (e :: List.replicate m e) = ⟨acc, db, none⟩
    simp only [bulkLoop, _sb_insert_client_event, if_pos h]
    exact ih s acc db h

/-- C4: replaying the same (client_id, event_id) event N ≥ 1 times yields
exactly one state change and a total accepted count of the first batch (1 when
the key was fresh): the batch of N copies equals the batch of one, a second
batch with the same event accepts nothing and changes nothing, and a fresh key
whose dispatch succeeds is accepted exactly once. -/
theorem bulk_events_replay (db : DB) (cid : String) (sid : Int) (e : BulkEvent)
    (now : Int) (n : Nat) (hn : 1 ≤ n)
    (herr : (bulk_events db cid sid [e] now).error = none) :
    bulk_events db cid sid (List.replicate n e) now =
      { accepted := (bulk_events db cid sid [e] now).accepted,
        db := (bulk_events db cid sid [e] now).db, error := none } ∧
    bulk_events (bulk_events db cid sid [e] now).db cid sid [e] now =
      { accepted := 0, db := (bulk_events db cid sid [e] now).db, error := none } ∧
    (db.client_events.any (fun ev => ev.client_id == cid && ev.event_id == e.event_id) = false →
      (bulk_events db cid sid [e] now).accepted = 1) := by
  obtain ⟨m, rfl⟩ : ∃ m, n = m + 1 := ⟨n - 1, by omega⟩
  cases hgs : getSession db sid with
  | none =>
    rw [show bulk_events db cid sid [e] now = ⟨0, db, some (.http 404 "Session not found")⟩
      from by simp only [bulk_events, hgs]] at herr
    simp at herr
  | some s0 =>
    by_cases hrec : db.client_events.any
        (fun ev => ev.client_id == cid && ev.event_id == e.event_id) = true
    · have h1 : bulk_events db cid sid [e] now = ⟨0, db, none⟩ := by
        simp only [bulk_events, hgs]
        have := bulkLoop_skip_all cid sid now e 1 s0 0 db hrec
        simpa using this
      rw [h1]
      refine ⟨?_, ?_, ?_⟩
      · simp only [bulk_events, hgs]
        exact bulkLoop_skip_all cid sid now e (m + 1) s0 0 db hrec
      · exact h1
      · intro hfalse; rw [hrec] at hfalse; cases hfalse
    · have hrecf : db.client_events.any
          (fun ev => ev.client_id == cid && ev.event_id == e.event_id) = false := by
        revert hrec; cases db.client_events.any
          (fun ev => ev.client_id == cid && ev.event_id == e.event_id) <;> simp
      have hins : _sb_insert_client_event db sid cid e.event_id e.event_type =
          (true, { db with client_events :=
            db.client_events ++ [⟨sid, cid, e.event_id, e.event_type⟩] }) := by
        unfold _sb_insert_client_event
        rw [if_neg hrec]
      rcases hdisp : dispatchEvent sid now s0
          { db with client_events :=
            db.client_events ++ [⟨sid, cid, e.event_id, e.event_type⟩] } e
        with ⟨err?, s2, db2⟩
      have hloopone : ∀ rest, bulkLoop cid sid now s0 0 db (e :: rest) =
          (match dispatchEvent sid now s0
              { db with client_events :=
                db.client_events ++ [⟨sid, cid, e.event_id, e.event_type⟩] } e with
           | (some err, _, dbx) => ⟨0, dbx, some err⟩
           | (none, sx, dbx) => bulkLoop cid sid now sx (0 + 1) dbx rest) := by
        intro rest
        simp only [bulkLoop, hins]
        rw [if_pos trivial]
      cases err? with
      | some err =>
        have h1 : bulk_events db cid sid [e] now = ⟨0, db2, some err⟩ := by
          simp only [bulk_events, hgs]
          rw [hloopone [], hdisp]
        rw [h1] at herr
        simp at herr
      | none =>
        have h1 : bulk_events db cid sid [e] now = ⟨1, db2, none⟩ := by
          simp only [bulk_events, hgs]
          rw [hloopone [], hdisp]
          rfl
        have hdb2ce : db2.client_events =
            db.client_events ++ [⟨sid, cid, e.event_id, e.event_type⟩] := by
          have := dispatchEvent_client_events sid now s0
            { db with client_events :=
              db.client_events ++ [⟨sid, cid, e.event_id, e.event_type⟩] } e
          rw [hdisp] at this
          exact this
        have hrec2 : db2.client_events.any
            (fun ev => ev.client_id == cid && ev.event_id == e.event_id) = true := by
          rw [hdb2ce]
          simp
        have hsome2 : ∃ s', getSession db2 sid = some s' := by
          apply Option.isSome_iff_exists.mp
          have := dispatchEvent_session_isSome sid now s0
            { db with client_events :=
              db.client_events ++ [⟨sid, cid, e.event_id, e.event_type⟩] } e sid
          rw [hdisp] at this
          simp only at this
          rw [this]
          show (getSession db sid).isSome = true
          rw [hgs]
          rfl
      -- hmm getSession of db-with-events: sessions equal
        obtain ⟨s', hs'⟩ := hsome2
        rw [h1]
        refine ⟨?_, ?_, ?_⟩
        · simp only [bulk_events, hgs, List.replicate_succ]
          rw [hloopone (List.replicate m e), hdisp]
          exact bulkLoop_skip_all cid sid now e m s2 1 db2 hrec2
        · simp only [bulk_events, hs']
          have := bulkLoop_skip_all cid sid now e 1 s' 0 db2 hrec2
          simpa using this
        · intro _; rfl

/-- Witness for C4: three replays of one EMERGENCY event against the default
session behave exactly like one, and a second batch accepts nothing. -/
theorem bulk_events_replay_witness :
    bulk_events exDbSession "cli" 1 (List.replicate 3 exEventEmerg) 0 =
      { accepted := (bulk_events exDbSession "cli" 1 [exEventEmerg] 0).accepted,
        db := (bulk_events exDbSession "cli" 1 [exEventEmerg] 0).db, error := none } ∧
    bulk_events (bulk_events exDbSession "cli" 1 [exEventEmerg] 0).db "cli" 1
        [exEventEmerg] 0 =
      { accepted := 0, db := (bulk_events exDbSession "cli" 1 [exEventEmerg] 0).db,
        error := none } ∧
    (bulk_events exDbSession "cli" 1 [exEventEmerg] 0).accepted = 1 := by
  have h := bulk_events_replay exDbSession "cli" 1 exEventEmerg 0 3 (by decide) rfl
  exact ⟨h.1, h.2.1, h.2.2 rfl⟩

/-- `find?` keeps its hit when the list is extended on the right. -/
theorem find?_append_some {α} (p : α → Bool) (l₁ l₂ : List α) (a : α)
    (h : l₁.find? p = some a) : (l₁ ++ l₂).find? p = some a := by
  induction l₁ with
  | nil => simp at h
  | cons x xs ih =>
    by_cases hx : p x = true
    · rw [List.find?_cons_of_pos _ hx] at h
      rw [List.cons_append, List.find?_cons_of_pos _ hx]
      exact h
    · rw [List.find?_cons_of_neg _ hx] at h
      rw [List.cons_append, List.find?_cons_of_neg _ hx]
      exact ih h

/-- An in-place conditional map with a predicate-preserving patch rewrites the
row `find?` returns. -/
theorem find?_map_cond {α} (l : List α) (p : α → Bool) (g : α → α) (q : α → Prop)
    [DecidablePred q] (hpg : ∀ a, p (g a) = p a) (s : α) (h : l.find? p = some s) :
    (l.map (fun a => if q a then g a else a)).find? p = some (if q s then g s else s) := by
  induction l with
  | nil => simp at h
  | cons x xs ih =>
    have hxsame : p (if q x then g x else x) = p x := by
      split
      · exact hpg x
      · rfl
    by_cases hx : p x = true
    · rw [List.find?_cons_of_pos _ hx] at h
      simp only [Option.some.injEq] at h
      subst h
      simp only [List.map_cons]
      rw [List.find?_cons_of_pos _ (by rw [hxsame]; exact hx)]
    · rw [List.find?_cons_of_neg _ hx] at h
      simp only [List.map_cons]
      rw [List.find?_cons_of_neg _ (by rw [hxsame]; exact hx)]
      exact ih h

/-- `mark_arrived` never writes the sessions table. -/
theorem mark_arrived_sessions (db : DB) (tid now : Int) :
    ((mark_arrived db tid now).2).sessions = db.sessions := by
  simp only [mark_arrived]
  repeat' split
  all_goals rfl

/-- `add_walkin` never writes the sessions table. -/
theorem add_walkin_sessions (db : DB) (sid : Int) (body : WalkInRequest) (now : Int) :
    ((add_walkin db sid body now).2).sessions = db.sessions := by
  simp only [add_walkin]
  repeat' split
  all_goals rfl

/-- `book_token` writes the sessions table only through the get-or-create
step. -/
theorem book_token_sessions (db : DB) (clinic doctor dateKey : String)
    (body : IntakeRequest) (now : Int) :
    ((book_token db clinic doctor dateKey body now).2).sessions =
      ((getOrCreateSession db clinic doctor dateKey).2).sessions := by
  simp only [book_token]
  repeat' split
  all_goals rfl

/-- The session-resolved part of `book_slot` never writes the sessions
table. -/
theorem bookSlotCore_sessions (s : SessionRow) (db : DB) (body : BookSlotRequest) (now : Int) :
    ((bookSlotCore s db body now).2).sessions = db.sessions := by
  simp only [bookSlotCore]
  repeat' split
  all_goals rfl

/-- The token-cancelling loop of `close_now` never writes the sessions
table. -/
theorem close_now_tokens_fold_sessions (ids : List Int) (f : TokenRow → TokenRow) (db : DB) :
    ((ids.foldl (fun d i => updTok d i f) db)).sessions = db.sessions := by
  induction ids generalizing db with
  | nil => rfl
  | cons i rest ih => exact ih (updTok db i f)

/-- Get-or-create keeps every existing session untouched and only ever adds a
session with zero debt. -/
theorem getOrCreateSession_debt (db : DB) (clinic doctor dateKey : String)
    (hinv : DebtInv db) :
    DebtInv (getOrCreateSession db clinic doctor dateKey).2 ∧
    (∀ sid x, getSession db sid = some x →
      getSession (getOrCreateSession db clinic doctor dateKey).2 sid = some x) := by
  unfold getOrCreateSession
  cases hfind : db.sessions.find? (fun s =>
      s.clinic_id == clinic && s.doctor_id == doctor && s.date_key == dateKey) with
  | some row => exact ⟨hinv, fun sid x hx => hx⟩
  | none =>
    constructor
    · intro s hs
      simp only [List.mem_append, List.mem_singleton] at hs
      rcases hs with hs | rfl
      · exact hinv s hs
      · exact le_refl 0
    · intro sid x hx
      exact find?_append_some _ _ _ _ hx

/-- Overwriting one session's debt with a larger nonnegative value: debts stay
nonnegative, the written row is the fetched row with the new debt, and every
session's debt is monotone. -/
theorem updSession_debt (db : DB) (sid : Int) (s : SessionRow) (d : Int)
    (hs : getSession db sid = some s) (hd : s.emergency_debt_minutes ≤ d) (hd0 : 0 ≤ d)
    (hinv : DebtInv db) :
    DebtInv (updSession db sid (fun r => { r with emergency_debt_minutes := d })) ∧
    getSession (updSession db sid (fun r => { r with emergency_debt_minutes := d })) sid =
      some { s with emergency_debt_minutes := d } ∧
    (∀ sid2 x, getSession db sid2 = some x →
      ∃ x', getSession (updSession db sid
          (fun r => { r with emergency_debt_minutes := d })) sid2 = some x' ∧
        x.emergency_debt_minutes ≤ x'.emergency_debt_minutes) := by
  have hsid : s.id = sid := by
    have := List.find?_some hs
    simpa using this
  refine ⟨?_, ?_, ?_⟩
  · intro r hr
    unfold updSession at hr
    simp only [List.mem_map] at hr
    obtain ⟨a, ha, rfl⟩ := hr
    split
    · exact hd0
    · exact hinv a ha
  · have := find?_map_cond db.sessions (fun r => r.id == sid)
      (fun r => { r with emergency_debt_minutes := d }) (fun r => r.id = sid)
      (fun a => rfl) s hs
    unfold getSession updSession
    simp only
    rw [this, if_pos hsid]
  · intro sid2 x hx
    have hx2 : x.id = sid2 := by
      have := List.find?_some hx
      simpa using this
    have := find?_map_cond db.sessions (fun r => r.id == sid2)
      (fun r => { r with emergency_debt_minutes := d }) (fun r => r.id = sid)
      (fun a => rfl) x hx
    refine ⟨_, this, ?_⟩
    split
    · rename_i hq
      have hss : sid2 = sid := by rw [← hx2, hq]
      subst hss
      rw [hs] at hx
      simp only [Option.some.injEq] at hx
      subst hx
      exact hd
    · exact le_refl _

/-- A session patch that does not touch the debt keeps all debts intact. -/
theorem updSession_debt_keep (db : DB) (sid : Int) (f : SessionRow → SessionRow)
    (hid : ∀ r, (f r).id = r.id)
    (hdebt : ∀ r, (f r).emergency_debt_minutes = r.emergency_debt_minutes)
    (hinv : DebtInv db) :
    DebtInv (updSession db sid f) ∧
    (∀ sid2 x, getSession db sid2 = some x →
      ∃ x', getSession (updSession db sid f) sid2 = some x' ∧
        x.emergency_debt_minutes ≤ x'.emergency_debt_minutes) := by
  constructor
  · intro r hr
    unfold updSession at hr
    simp only [List.mem_map] at hr
    obtain ⟨a, ha, rfl⟩ := hr
    split
    · rw [hdebt]; exact hinv a ha
    · exact hinv a ha
  · intro sid2 x hx
    have := find?_map_cond db.sessions (fun r => r.id == sid2) f (fun r => r.id = sid)
      (fun a => by simp only [hid]) x hx
    refine ⟨_, this, ?_⟩
    split
    · rw [hdebt]
    · exact le_refl _

/-- `DebtInv` only looks at the sessions table. -/
theorem DebtInv_congr (db1 db2 : DB) (h : db2.sessions = db1.sessions) (hinv : DebtInv db1) :
    DebtInv db2 := by
  intro s hs
  rw [h] at hs
  exact hinv s hs

/-- If the sessions table is unchanged, every debt is trivially monotone. -/
theorem debt_unchanged_of_sessions_eq (db db2 : DB) (h : db2.sessions = db.sessions) :
    (∀ sid2 x, getSession db sid2 = some x →
      ∃ x', getSession db2 sid2 = some x' ∧
        x.emergency_debt_minutes ≤ x'.emergency_debt_minutes) := by
  intro sid2 x hx
  exact ⟨x, by rw [getSession_congr db2 db sid2 h]; exact hx, le_refl _⟩

/-- One replay dispatch with a well-formed EMERGENCY payload keeps the local
session row in sync with the table, keeps debts nonnegative, and never
decreases any session's debt. -/
theorem dispatchEvent_debt (sid now : Int) (s : SessionRow) (db : DB) (e : BulkEvent)
    (hgood : goodEvent e) (hs : getSession db sid = some s) (hinv : DebtInv db) :
    getSession (dispatchEvent sid now s db e).2.2 sid =
      some (dispatchEvent sid now s db e).2.1 ∧
    DebtInv (dispatchEvent sid now s db e).2.2 ∧
    (∀ sid2 x, getSession db sid2 = some x →
      ∃ x', getSession (dispatchEvent sid now s db e).2.2 sid2 = some x' ∧
        x.emergency_debt_minutes ≤ x'.emergency_debt_minutes) := by
  have hmem := List.mem_of_find?_eq_some hs
  have hdnn : 0 ≤ s.emergency_debt_minutes := hinv s hmem
  cases hpm : e.payload_minutes with
  | none =>
    have hEmerg := updSession_debt db sid s (s.emergency_debt_minutes + 10) hs
      (by omega) (by omega) hinv
    simp only [dispatchEvent, hpm]
    repeat' split
    all_goals first
      | exact ⟨hs, hinv, debt_unchanged_of_sessions_eq db db rfl⟩
      | exact ⟨hs, hinv, debt_unchanged_of_sessions_eq db (updTok db _ _) rfl⟩
      | (refine ⟨?_, DebtInv_congr db _ (serve_next_sessions db sid now) hinv,
          debt_unchanged_of_sessions_eq db _ (serve_next_sessions db sid now)⟩;
         rw [getSession_congr _ db sid (serve_next_sessions db sid now)]; exact hs)
      | (refine ⟨?_, DebtInv_congr db _ (skip_token_sessions db sid _ now) hinv,
          debt_unchanged_of_sessions_eq db _ (skip_token_sessions db sid _ now)⟩;
         rw [getSession_congr _ db sid (skip_token_sessions db sid _ now)]; exact hs)
      | (refine ⟨?_, DebtInv_congr db _ (cancel_token_sessions db sid _ now) hinv,
          debt_unchanged_of_sessions_eq db _ (cancel_token_sessions db sid _ now)⟩;
         rw [getSession_congr _ db sid (cancel_token_sessions db sid _ now)]; exact hs)
      | exact ⟨hEmerg.2.1, hEmerg.1, hEmerg.2.2⟩
  | some m =>
    have hm := hgood m hpm
    have hint : (0:Int) ≤ intOr m 10 := by
      unfold intOr
      split <;> omega
    have hEmerg := updSession_debt db sid s (s.emergency_debt_minutes + intOr m 10) hs
      (by omega) (by omega) hinv
    simp only [dispatchEvent, hpm]
    repeat' split
    all_goals first
      | exact ⟨hs, hinv, debt_unchanged_of_sessions_eq db db rfl⟩
      | exact ⟨hs, hinv, debt_unchanged_of_sessions_eq db (updTok db _ _) rfl⟩
      | (refine ⟨?_, DebtInv_congr db _ (serve_next_sessions db sid now) hinv,
          debt_unchanged_of_sessions_eq db _ (serve_next_sessions db sid now)⟩;
         rw [getSession_congr _ db sid (serve_next_sessions db sid now)]; exact hs)
      | (refine ⟨?_, DebtInv_congr db _ (skip_token_sessions db sid _ now) hinv,
          debt_unchanged_of_sessions_eq db _ (skip_token_sessions db sid _ now)⟩;
         rw [getSession_congr _ db sid (skip_token_sessions db sid _ now)]; exact hs)
      | (refine ⟨?_, DebtInv_congr db _ (cancel_token_sessions db sid _ now) hinv,
          debt_unchanged_of_sessions_eq db _ (cancel_token_sessions db sid _ now)⟩;
         rw [getSession_congr _ db sid (cancel_token_sessions db sid _ now)]; exact hs)
      | exact ⟨hEmerg.2.1, hEmerg.1, hEmerg.2.2⟩

/-- The whole replay loop preserves nonnegative debts and debt
monotonicity when all EMERGENCY payloads are well-formed. -/
theorem bulkLoop_debt (cid : String) (sid now : Int) :
    ∀ (events : List BulkEvent) (s : SessionRow) (acc : Int) (db : DB),
      (∀ e ∈ events, goodEvent e) → getSession db sid = some s → DebtInv db →
      DebtInv (bulkLoop cid sid now s acc db events).db ∧
      (∀ sid2 x, getSession db sid2 = some x →
        ∃ x', getSession (bulkLoop cid sid now s acc db events).db sid2 = some x' ∧
          x.emergency_debt_minutes ≤ x'.emergency_debt_minutes) := by
  intro events
  induction events with
  | nil =>
    intro s acc db _ hs hinv
    exact ⟨hinv, fun sid2 x hx => ⟨x, hx, le_refl _⟩⟩
  | cons e rest ih =>
    intro s acc db hgood hs hinv
    show DebtInv (bulkLoop cid sid now s acc db (e :: rest)).db ∧ _
    simp only [bulkLoop]
    rcases hins : _sb_insert_client_event db sid cid e.event_id e.event_type
      with ⟨isNew, dbi⟩
    have hdbi : dbi.sessions = db.sessions := by
      unfold _sb_insert_client_event at hins
      split at hins <;> (simp only [Prod.mk.injEq] at hins; rw [← hins.2])
    have hsi : getSession dbi sid = some s := by
      rw [getSession_congr dbi db sid hdbi]; exact hs
    have hinvi : DebtInv dbi := DebtInv_congr db dbi hdbi hinv
    cases isNew with
    | false =>
      simp only [Bool.false_eq_true, if_false]
      have := ih s acc dbi (fun x hx => hgood x (by simp [hx])) hsi hinvi
      refine ⟨this.1, fun sid2 x hx => ?_⟩
      exact this.2 sid2 x (by rw [getSession_congr dbi db sid2 hdbi]; exact hx)
    | true =>
      simp only [if_true]
      have hde := dispatchEvent_debt sid now s dbi e (hgood e (by simp)) hsi hinvi
      rcases hdisp : dispatchEvent sid now s dbi e with ⟨err?, s2, db2⟩
      rw [hdisp] at hde
      simp only at hde
      cases err? with
      | some err =>
        refine ⟨hde.2.1, fun sid2 x hx => ?_⟩
        exact hde.2.2 sid2 x (by rw [getSession_congr dbi db sid2 hdbi]; exact hx)
      | none =>
        have := ih s2 (acc + 1) db2 (fun x hx => hgood x (by simp [hx])) hde.1 hde.2.1
        refine ⟨this.1, fun sid2 x hx => ?_⟩
        obtain ⟨x1, hx1, hle1⟩ := hde.2.2 sid2 x
          (by rw [getSession_congr dbi db sid2 hdbi]; exact hx)
        obtain ⟨x2, hx2, hle2⟩ := this.2 sid2 x1 hx1
        exact ⟨x2, hx2, le_trans hle1 hle2⟩

/-- `close_now` changes only the closed flag, so debts are untouched. -/
theorem close_now_debt (db : DB) (sid now : Int) (hinv : DebtInv db) :
    DebtInv ((close_now db sid now).2) ∧
    (∀ sid2 x, getSession db sid2 = some x →
      ∃ x', getSession ((close_now db sid now).2) sid2 = some x' ∧
        x.emergency_debt_minutes ≤ x'.emergency_debt_minutes) := by
  simp only [close_now]
  cases hgs : getSession db sid with
  | none => exact ⟨hinv, fun sid2 x hx => ⟨x, hx, le_refl _⟩⟩
  | some s =>
    have hu := updSession_debt_keep db sid (fun r => { r with unplanned_closed := true })
      (fun r => rfl) (fun r => rfl) hinv
    have hsess := close_now_tokens_fold_sessions
      (((updSession db sid (fun r => { r with unplanned_closed := true })).tokens.filter
        (fun t => t.session_id == sid && isActive t.state)).map (fun t => t.id))
      (fun u => { u with state := .CANCELLED, last_state_change_at := now })
      (updSession db sid (fun r => { r with unplanned_closed := true }))
    refine ⟨DebtInv_congr _ _ hsess hu.1, fun sid2 x hx => ?_⟩
    obtain ⟨x', hx', hle⟩ := hu.2 sid2 x hx
    refine ⟨x', ?_, hle⟩
    rw [getSession_congr _ _ sid2 hsess]
    exact hx'

/-- Per-operation emergency-debt facts: any validated operation keeps debts
nonnegative and never decreases an existing session's debt. -/
theorem applyOp_debt (op : Op) (now : Int) (db : DB) (hgood : goodOp op)
    (hinv : DebtInv db) :
    DebtInv (applyOp op now db) ∧
    (∀ sid x, getSession db sid = some x →
      ∃ x', getSession (applyOp op now db) sid = some x' ∧
        x.emergency_debt_minutes ≤ x'.emergency_debt_minutes) := by
  cases op with
  | book clinic doctor dateKey body =>
    simp only [applyOp]
    have hb := book_token_sessions db clinic doctor dateKey body now
    have hg := getOrCreateSession_debt db clinic doctor dateKey hinv
    refine ⟨DebtInv_congr _ _ hb hg.1, fun sid x hx => ⟨x, ?_, le_refl _⟩⟩
    rw [getSession_congr _ _ sid hb]
    exact hg.2 sid x hx
  | bookSlot sessionId clinic doctor dateKey body =>
    simp only [applyOp]
    cases sessionId with
    | some sidq =>
      have hsess : ((book_slot db (some sidq) clinic doctor dateKey body now).2).sessions =
          db.sessions := by
        simp only [book_slot]
        split
        · rfl
        · exact bookSlotCore_sessions _ db body now
      exact ⟨DebtInv_congr db _ hsess hinv, debt_unchanged_of_sessions_eq db _ hsess⟩
    | none =>
      have hsess : ((book_slot db none clinic doctor dateKey body now).2).sessions =
          ((getOrCreateSession db clinic doctor dateKey).2).sessions := by
        simp only [book_slot]
        exact bookSlotCore_sessions _ _ body now
      have hg := getOrCreateSession_debt db clinic doctor dateKey hinv
      refine ⟨DebtInv_congr _ _ hsess hg.1, fun sid x hx => ⟨x, ?_, le_refl _⟩⟩
      rw [getSession_congr _ _ sid hsess]
      exact hg.2 sid x hx
  | walkin sid body =>
    simp only [applyOp]
    have hsess := add_walkin_sessions db sid body now
    exact ⟨DebtInv_congr db _ hsess hinv, debt_unchanged_of_sessions_eq db _ hsess⟩
  | arrive tid =>
    simp only [applyOp]
    have hsess := mark_arrived_sessions db tid now
    exact ⟨DebtInv_congr db _ hsess hinv, debt_unchanged_of_sessions_eq db _ hsess⟩
  | serveNext sid =>
    simp only [applyOp]
    have hsess := serve_next_sessions db sid now
    exact ⟨DebtInv_congr db _ hsess hinv, debt_unchanged_of_sessions_eq db _ hsess⟩
  | skip sid tid =>
    simp only [applyOp]
    have hsess := skip_token_sessions db sid tid now
    exact ⟨DebtInv_congr db _ hsess hinv, debt_unchanged_of_sessions_eq db _ hsess⟩
  | cancel sid tid =>
    simp only [applyOp]
    have hsess := cancel_token_sessions db sid tid now
    exact ⟨DebtInv_congr db _ hsess hinv, debt_unchanged_of_sessions_eq db _ hsess⟩
  | emergency sid m =>
    obtain ⟨hm1, _⟩ := hgood
    simp only [applyOp, trigger_emergency]
    cases hgs : getSession db sid with
    | none => exact ⟨hinv, fun sid2 x hx => ⟨x, hx, le_refl _⟩⟩
    | some s =>
      have hmem := List.mem_of_find?_eq_some hgs
      have h0 : 0 ≤ s.emergency_debt_minutes := hinv s hmem
      have hu := updSession_debt db sid s (s.emergency_debt_minutes + m) hgs
        (by omega) (by omega) hinv
      exact ⟨hu.1, hu.2.2⟩
  | closeNow sid =>
    simp only [applyOp]
    exact close_now_debt db sid now hinv
  | bulk cid sid events =>
    simp only [applyOp, bulk_events]
    cases hgs : getSession db sid with
    | none => exact ⟨hinv, fun sid2 x hx => ⟨x, hx, le_refl _⟩⟩
    | some s =>
      exact bulkLoop_debt cid sid now events s 0 db hgood hgs hinv

/-- C8 (amended): provided `trigger_emergency` minutes pass the schema bound
5-60 and every bulk EMERGENCY payload carries a nonnegative `minutes`, each
session's emergency debt is monotonically non-decreasing under every
operation, and along any operation sequence from the initial database it
stays >= 0.  (The unamended claim is false: the bulk path applies the raw
payload - see the counterexample.) -/
theorem emergency_debt_monotone :
    (∀ op now db sid s, goodOp op → DebtInv db → getSession db sid = some s →
      ∃ s', getSession (applyOp op now db) sid = some s' ∧
        s.emergency_debt_minutes ≤ s'.emergency_debt_minutes) ∧
    (∀ l : List (Op × Int), (∀ p ∈ l, goodOp p.1) →
      ∀ s ∈ (applyOps initDB l).sessions, 0 ≤ s.emergency_debt_minutes) := by
  constructor
  · intro op now db sid s hop hinv hs
    exact (applyOp_debt op now db hop hinv).2 sid s hs
  · have main : ∀ (l : List (Op × Int)) (db : DB), DebtInv db → (∀ p ∈ l, goodOp p.1) →
        DebtInv (applyOps db l) := by
      intro l
      induction l with
      | nil => intro db h _; exact h
      | cons p rest ih =>
        intro db hinv hgood
        exact ih _ (applyOp_debt p.1 p.2 db (hgood p (by simp)) hinv).1
          (fun q hq => hgood q (by simp [hq]))
    intro l hgood
    exact main l initDB (fun s hs => by simp [initDB] at hs) hgood

/-- C8 counterexample: a replayed EMERGENCY event with payload `minutes = -50`
(which the bulk path applies without validation) drives the session's debt
from 0 to -50 - the debt decreases and goes negative. -/
theorem emergency_debt_counterexample :
    (getSession exDbSession 1).map (fun s => s.emergency_debt_minutes) = some 0 ∧
    (getSession (bulk_events exDbSession "cli" 1 [exEventEmergNeg] 0).db 1).map
        (fun s => s.emergency_debt_minutes) = some (-50) ∧
    (-50 : Int) < 0 :=
  ⟨rfl, rfl, by decide⟩

/-- Witness for C8's amended claim: a validated +10 emergency on the default
session does not decrease its debt. -/
theorem emergency_debt_monotone_witness :
    ∃ s', getSession (applyOp (Op.emergency 1 10) 0 exDbSession) 1 = some s' ∧
      exSession.emergency_debt_minutes ≤ s'.emergency_debt_minutes :=
  emergency_debt_monotone.1 (Op.emergency 1 10) 0 exDbSession 1 exSession
    ⟨by decide, by decide⟩
    (by intro s hs; simp only [exDbSession, List.mem_singleton] at hs; subst hs; decide)
    rfl

/-- A conditional map is the identity when nothing satisfies the condition. -/
theorem mapCond_eq_of_not {α} (l : List α) (g : α → α) (q : α → Prop) [DecidablePred q]
    (h : ∀ a ∈ l, ¬ q a) : l.map (fun a => if q a then g a else a) = l := by
  induction l with
  | nil => rfl
  | cons x xs ih =>
    simp only [List.map_cons, if_neg (h x (by simp))]
    rw [ih (fun a ha => h a (by simp [ha]))]

/-- A conditional in-place map whose patch never makes the counted predicate
newly true cannot increase the count. -/
theorem countP_mapCond_le {α} (l : List α) (p : α → Bool) (g : α → α) (q : α → Prop)
    [DecidablePred q] (h : ∀ a ∈ l, q a → p (g a) = true → p a = true) :
    (l.map (fun a => if q a then g a else a)).countP p ≤ l.countP p := by
  induction l with
  | nil => simp
  | cons x xs ih =>
    have ih2 := ih (fun a ha => h a (by simp [ha]))
    simp only [List.map_cons, List.countP_cons]
    have hx : (if p (if q x then g x else x) = true then 1 else 0) ≤
        (if p x = true then 1 else 0) := by
      by_cases hqx : q x
      · rw [if_pos hqx]
        by_cases hpgx : p (g x) = true
        · rw [if_pos hpgx, if_pos (h x (by simp) hqx hpgx)]
        · rw [if_neg hpgx]
          omega
      · rw [if_neg hqx]
    omega

/-- A conditional in-place map touching at most one element increases the
count by at most one. -/
theorem countP_mapCond_le_succ {α} (l : List α) (p : α → Bool) (g : α → α) (q : α → Prop)
    [DecidablePred q] (hq : l.countP (fun a => decide (q a)) ≤ 1) :
    (l.map (fun a => if q a then g a else a)).countP p ≤ l.countP p + 1 := by
  induction l with
  | nil => simp
  | cons x xs ih =>
    simp only [List.countP_cons] at hq ⊢
    simp only [List.map_cons, List.countP_cons]
    by_cases hqx : q x
    · have hrest : xs.countP (fun a => decide (q a)) = 0 := by
        rw [if_pos (by simp [hqx])] at hq
        omega
      have hnone : ∀ a ∈ xs, ¬ q a := by
        intro a ha hqa
        have := List.countP_eq_zero.mp hrest a ha
        simp [hqa] at this
      rw [mapCond_eq_of_not xs g q hnone]
      split <;> split <;> omega
    · have := ih (by rw [if_neg (by simp [hqx])] at hq; omega)
      rw [if_neg hqx]
      omega

/-- With at most one counted element, any two counted members coincide. -/
theorem countP_le_one_unique {α} (l : List α) (p : α → Bool) (hc : l.countP p ≤ 1)
    (a b : α) (ha : a ∈ l) (hb : b ∈ l) (hpa : p a = true) (hpb : p b = true) : a = b := by
  induction l with
  | nil => simp at ha
  | cons x xs ih =>
    simp only [List.countP_cons] at hc
    rcases List.mem_cons.mp ha with rfl | ha2
    · rcases List.mem_cons.mp hb with rfl | hb2
      · rfl
      · exfalso
        have h1 : 0 < xs.countP p := List.countP_pos.mpr ⟨b, hb2, hpb⟩
        rw [if_pos hpa] at hc
        omega
    · rcases List.mem_cons.mp hb with rfl | hb2
      · exfalso
        have h1 : 0 < xs.countP p := List.countP_pos.mpr ⟨a, ha2, hpa⟩
        rw [if_pos hpb] at hc
        omega
      · exact ih (by omega) ha2 hb2

/-- Patching the unique counted element (found by `find?`) so that it no
longer counts drives the count to zero. -/
theorem countP_mapCond_zero {α} (l : List α) (p : α → Bool) (g : α → α) (q : α → Prop)
    [DecidablePred q] (hc : l.countP p ≤ 1) (c : α) (hfind : l.find? p = some c)
    (hg : ∀ a, q a → p (g a) = false) (hqc : q c) :
    (l.map (fun a => if q a then g a else a)).countP p = 0 := by
  rw [List.countP_eq_zero]
  intro a' ha'
  simp only [List.mem_map] at ha'
  obtain ⟨a, ha, rfl⟩ := ha'
  by_cases hqa : q a
  · rw [if_pos hqa]
    simp [hg a hqa]
  · rw [if_neg hqa]
    intro hpa
    have hceq : a = c := countP_le_one_unique l p hc a c ha
      (List.mem_of_find?_eq_some hfind) hpa (List.find?_some hfind)
    subst hceq
    exact hqa hqc

/-- Under an injective key map, at most one element carries a given key. -/
theorem nodup_countP_le_one {α β} [DecidableEq β] (l : List α) (f : α → β)
    (hnd : (l.map f).Nodup) (c : β) :
    l.countP (fun a => decide (f a = c)) ≤ 1 := by
  induction l with
  | nil => simp
  | cons x xs ih =>
    simp only [List.map_cons, List.nodup_cons] at hnd
    simp only [List.countP_cons]
    by_cases hfx : f x = c
    · have h0 : xs.countP (fun a => decide (f a = c)) = 0 := by
        rw [List.countP_eq_zero]
        intro a ha
        simp only [decide_eq_true_eq]
        intro hfa
        exact hnd.1 (List.mem_map.mpr ⟨a, ha, by rw [hfa, hfx]⟩)
      rw [if_pos (by simp [hfx]), h0]
    · have := ih hnd.2
      rw [if_neg (by simp [hfx])]
      omega

/-- Distinct keys make the key map injective on members. -/
theorem nodup_map_inj {α β} (l : List α) (f : α → β) (hnd : (l.map f).Nodup)
    (a b : α) (ha : a ∈ l) (hb : b ∈ l) (hf : f a = f b) : a = b :=
  List.inj_on_of_nodup_map hnd ha hb hf

/-- `QueueInv` only looks at the token table and the id counter. -/
theorem QueueInv_congr (db1 db2 : DB) (ht : db2.tokens = db1.tokens)
    (hn : db2.nextTokenId = db1.nextTokenId) (h : QueueInv db1) : QueueInv db2 := by
  obtain ⟨h1, h2, h3⟩ := h
  refine ⟨by rw [ht]; exact h1, ?_, ?_⟩
  · intro t htm
    rw [ht] at htm
    rw [hn]
    exact h2 t htm
  · intro sid
    show db2.tokens.countP _ ≤ 1
    rw [ht]
    exact h3 sid

/-- An id-preserving token update leaves the id column unchanged. -/
theorem updTok_map_ids (db : DB) (tid : Int) (f : TokenRow → TokenRow)
    (hid : ∀ t, (f t).id = t.id) :
    (updTok db tid f).tokens.map (fun t => t.id) = db.tokens.map (fun t => t.id) := by
  unfold updTok
  simp only
  rw [List.map_map]
  apply List.map_congr_left
  intro t _
  simp only [Function.comp]
  split
  · exact hid t
  · rfl

/-- A token update whose patch never writes SERVING preserves the queue
invariant. -/
theorem QueueInv_updTok_nonserving (db : DB) (tid : Int) (f : TokenRow → TokenRow)
    (hid : ∀ t, (f t).id = t.id) (hst : ∀ t, (f t).state ≠ TokenState.SERVING)
    (h : QueueInv db) : QueueInv (updTok db tid f) := by
  obtain ⟨h1, h2, h3⟩ := h
  refine ⟨by rw [updTok_map_ids db tid f hid]; exact h1, ?_, ?_⟩
  · intro t htm
    show t.id < db.nextTokenId
    unfold updTok at htm
    simp only [List.mem_map] at htm
    obtain ⟨a, ha, rfl⟩ := htm
    split
    · rw [hid]
      exact h2 a ha
    · exact h2 a ha
  · intro sid
    show (db.tokens.map (fun t => if t.id = tid then f t else t)).countP _ ≤ 1
    refine le_trans (countP_mapCond_le _ _ _ _ ?_) (h3 sid)
    intro a _ _ hpga
    exfalso
    simp only [Bool.and_eq_true, beq_iff_eq] at hpga
    exact hst a hpga.2

/-- Inserting a fresh non-SERVING token at the id counter preserves the queue
invariant. -/
theorem QueueInv_insertToken (db : DB) (t : TokenRow) (hidt : t.id = db.nextTokenId)
    (hst : t.state ≠ TokenState.SERVING) (h : QueueInv db) : QueueInv (insertToken db t) := by
  obtain ⟨h1, h2, h3⟩ := h
  refine ⟨?_, ?_, ?_⟩
  · show ((db.tokens ++ [t]).map (fun u => u.id)).Nodup
    rw [List.map_append]
    refine List.Nodup.append h1 (by simp) ?_
    intro x hx hx2
    simp only [List.map_cons, List.map_nil, List.mem_singleton] at hx2
    subst hx2
    simp only [List.mem_map] at hx
    obtain ⟨a, ha, haeq⟩ := hx
    have hb := h2 a ha
    rw [haeq, hidt] at hb
    omega
  · intro u hu
    show u.id < db.nextTokenId + 1
    rcases List.mem_append.mp hu with hm | hm
    · have := h2 u hm
      omega
    · simp only [List.mem_singleton] at hm
      subst hm
      omega
  · intro sid
    show ((db.tokens ++ [t]).countP _) ≤ 1
    rw [List.countP_append]
    have hpt : (t.session_id == sid && t.state == TokenState.SERVING) = false := by
      have hb : (t.state == TokenState.SERVING) = false := by
        rw [beq_eq_false_iff_ne]
        exact hst
      rw [hb, Bool.and_false]
    have : List.countP (fun u => u.session_id == sid && u.state == TokenState.SERVING) [t] = 0 := by
      simp [List.countP_cons, hpt]
    rw [this]
    have h3b : db.tokens.countP
        (fun u => u.session_id == sid && u.state == TokenState.SERVING) ≤ 1 := h3 sid
    omega

/-- The minimum-token-number row is a member of the list. -/
theorem minByTokenNo_mem (l : List TokenRow) (t : TokenRow) (h : minByTokenNo l = some t) :
    t ∈ l := by
  induction l with
  | nil => simp [minByTokenNo] at h
  | cons x xs ih =>
    rw [show minByTokenNo (x :: xs) = (match minByTokenNo xs with
      | none => some x
      | some b => if b.token_no < x.token_no then some b else some x) from rfl] at h
    cases hm : minByTokenNo xs with
    | none =>
      rw [hm] at h
      injection h with h
      exact h ▸ List.mem_cons_self x xs
    | some b =>
      rw [hm] at h
      have h2 : (if b.token_no < x.token_no then some b else some x) = some t := h
      by_cases hlt : b.token_no < x.token_no
      · rw [if_pos hlt] at h2
        injection h2 with h2
        exact List.mem_cons_of_mem x (ih (h2 ▸ hm))
      · rw [if_neg hlt] at h2
        injection h2 with h2
        exact h2 ▸ List.mem_cons_self x xs

/-- The next eligible token belongs to the table and to the queried
session. -/
theorem nextEligible_mem (db : DB) (sid : Int) (nxt : TokenRow)
    (h : nextEligible db sid = some nxt) : nxt ∈ db.tokens ∧ nxt.session_id = sid := by
  unfold nextEligible at h
  have hmem := minByTokenNo_mem _ _ h
  rw [List.mem_filter] at hmem
  refine ⟨hmem.1, ?_⟩
  have h2 := hmem.2
  simp only [Bool.and_eq_true, beq_iff_eq] at h2
  exact h2.1

/-- Setting one token of a session with no SERVING token to SERVING keeps the
invariant: that session reaches at most one, and other sessions are untouched
because ids are unique and the patch keeps the session field. -/
theorem QueueInv_set_serving (db : DB) (sid : Int) (nxt : TokenRow) (f : TokenRow → TokenRow)
    (hid : ∀ t, (f t).id = t.id) (hsess : ∀ t, (f t).session_id = t.session_id)
    (h : QueueInv db) (h0 : servingCount db sid = 0)
    (hmem : nxt ∈ db.tokens) (hnsess : nxt.session_id = sid) :
    QueueInv (updTok db nxt.id f) := by
  obtain ⟨h1, h2, h3⟩ := h
  refine ⟨by rw [updTok_map_ids db nxt.id f hid]; exact h1, ?_, ?_⟩
  · intro t htm
    show t.id < db.nextTokenId
    unfold updTok at htm
    simp only [List.mem_map] at htm
    obtain ⟨a, ha, rfl⟩ := htm
    split
    · rw [hid]
      exact h2 a ha
    · exact h2 a ha
  · intro sid2
    by_cases hs2 : sid2 = sid
    · subst hs2
      show (db.tokens.map (fun t => if t.id = nxt.id then f t else t)).countP _ ≤ 1
      refine le_trans (countP_mapCond_le_succ db.tokens
        (fun u => u.session_id == sid2 && u.state == TokenState.SERVING) f
        (fun a => a.id = nxt.id)
        (nodup_countP_le_one db.tokens (fun t => t.id) h1 nxt.id)) ?_
      have hz : db.tokens.countP
          (fun u => u.session_id == sid2 && u.state == TokenState.SERVING) = 0 := h0
      omega
    · show (db.tokens.map (fun t => if t.id = nxt.id then f t else t)).countP _ ≤ 1
      refine le_trans (countP_mapCond_le _ _ _ _ ?_) (h3 sid2)
      intro a ha hqa hpga
      exfalso
      have haeq : a = nxt := nodup_map_inj db.tokens (fun t => t.id) h1 a nxt ha hmem hqa
      subst haeq
      simp only [Bool.and_eq_true, beq_iff_eq] at hpga
      rw [hsess] at hpga
      exact hs2 (by rw [← hpga.1, hnsess])

/-- Completing the current serving token preserves the invariant and leaves
the session with zero SERVING tokens. -/
theorem serveCompleteCurrent_inv (db : DB) (sid now : Int) (h : QueueInv db) :
    QueueInv (serveCompleteCurrent db sid now) ∧
    servingCount (serveCompleteCurrent db sid now) sid = 0 := by
  unfold serveCompleteCurrent
  cases hf : getServingToken db sid with
  | none =>
    refine ⟨h, ?_⟩
    unfold getServingToken at hf
    show db.tokens.countP _ = 0
    rw [List.countP_eq_zero]
    intro a ha
    exact List.find?_eq_none.mp hf a ha
  | some c =>
    constructor
    · exact QueueInv_updTok_nonserving db c.id _ (fun t => rfl)
        (fun t hcon => nomatch hcon) h
    · show (db.tokens.map _).countP _ = 0
      refine countP_mapCond_zero db.tokens _ _ (fun a => a.id = c.id) (h.2.2 sid) c hf ?_ rfl
      intro a _
      simp

/-- `serve_next` preserves the queue invariant: it completes the unique
serving token before marking at most one new one. -/
theorem serve_next_inv (db : DB) (sid now : Int) (h : QueueInv db) :
    QueueInv (serve_next db sid now).2 := by
  simp only [serve_next]
  split
  · exact h
  · split
    · exact h
    · have hsc := serveCompleteCurrent_inv db sid now h
      cases hne : nextEligible (serveCompleteCurrent db sid now) sid with
      | none => exact hsc.1
      | some nxt =>
        have hmem := nextEligible_mem _ _ _ hne
        dsimp only
        split
        · exact QueueInv_updTok_nonserving _ _ _ (fun t => rfl)
            (fun t hcon => nomatch hcon) hsc.1
        · exact QueueInv_set_serving _ sid nxt _ (fun t => rfl) (fun t => rfl)
            hsc.1 hsc.2 hmem.1 hmem.2

/-- `mark_arrived` preserves the queue invariant. -/
theorem mark_arrived_inv (db : DB) (tid now : Int) (h : QueueInv db) :
    QueueInv (mark_arrived db tid now).2 := by
  simp only [mark_arrived]
  repeat' split
  all_goals first
    | exact h
    | exact QueueInv_updTok_nonserving _ _ _ (fun t => rfl) (fun t hcon => nomatch hcon) h

/-- `skip_token` preserves the queue invariant. -/
theorem skip_token_inv (db : DB) (sid tid now : Int) (h : QueueInv db) :
    QueueInv (skip_token db sid tid now).2 := by
  simp only [skip_token]
  repeat' split
  all_goals first
    | exact h
    | exact QueueInv_updTok_nonserving _ _ _ (fun t => rfl) (fun t hcon => nomatch hcon) h

/-- `cancel_token` preserves the queue invariant. -/
theorem cancel_token_inv (db : DB) (sid tid now : Int) (h : QueueInv db) :
    QueueInv (cancel_token db sid tid now).2 := by
  simp only [cancel_token]
  repeat' split
  all_goals first
    | exact h
    | exact QueueInv_updTok_nonserving _ _ _ (fun t => rfl) (fun t hcon => nomatch hcon) h

/-- Get-or-create never touches the token table or the token id counter. -/
theorem getOrCreateSession_tokensCounter (db : DB) (clinic doctor dateKey : String) :
    (getOrCreateSession db clinic doctor dateKey).2.tokens = db.tokens ∧
    (getOrCreateSession db clinic doctor dateKey).2.nextTokenId = db.nextTokenId := by
  unfold getOrCreateSession
  cases hfind : db.sessions.find? (fun s =>
      s.clinic_id == clinic && s.doctor_id == doctor && s.date_key == dateKey) <;> simp

/-- `book_token` preserves the queue invariant (it only ever inserts a BOOKED
token). -/
theorem book_token_inv (db : DB) (clinic doctor dateKey : String) (body : IntakeRequest)
    (now : Int) (h : QueueInv db) :
    QueueInv (book_token db clinic doctor dateKey body now).2 := by
  have hg := getOrCreateSession_tokensCounter db clinic doctor dateKey
  have hA : QueueInv (getOrCreateSession db clinic doctor dateKey).2 :=
    QueueInv_congr db _ hg.1 hg.2 h
  simp only [book_token]
  repeat' split
  all_goals first
    | exact hA
    | exact QueueInv_insertToken _ _ rfl (fun hcon => nomatch hcon) hA

/-- The session-resolved part of `book_slot` preserves the queue invariant. -/
theorem bookSlotCore_inv (s : SessionRow) (db : DB) (body : BookSlotRequest) (now : Int)
    (h : QueueInv db) : QueueInv (bookSlotCore s db body now).2 := by
  simp only [bookSlotCore]
  repeat' split
  all_goals first
    | exact h
    | exact QueueInv_insertToken _ _ rfl (fun hcon => nomatch hcon) h

/-- `book_slot` preserves the queue invariant. -/
theorem book_slot_inv (db : DB) (sessionId : Option Int) (clinic doctor dateKey : String)
    (body : BookSlotRequest) (now : Int) (h : QueueInv db) :
    QueueInv (book_slot db sessionId clinic doctor dateKey body now).2 := by
  cases sessionId with
  | some sidq =>
    simp only [book_slot]
    cases hgs : getSession db sidq with
    | none => exact h
    | some s => exact bookSlotCore_inv s db body now h
  | none =>
    simp only [book_slot]
    have hg := getOrCreateSession_tokensCounter db clinic doctor dateKey
    exact bookSlotCore_inv _ _ body now (QueueInv_congr db _ hg.1 hg.2 h)

/-- `add_walkin` preserves the queue invariant (it inserts an ARRIVED
token). -/
theorem add_walkin_inv (db : DB) (sid : Int) (body : WalkInRequest) (now : Int)
    (h : QueueInv db) : QueueInv (add_walkin db sid body now).2 := by
  simp only [add_walkin]
  repeat' split
  all_goals first
    | exact h
    | exact QueueInv_insertToken _ _ rfl (fun hcon => nomatch hcon) h

/-- `trigger_emergency` never touches the token table. -/
theorem trigger_emergency_inv (db : DB) (sid m : Int) (h : QueueInv db) :
    QueueInv (trigger_emergency db sid m).2 := by
  simp only [trigger_emergency]
  repeat' split
  all_goals first
    | exact h
    | exact QueueInv_congr db _ rfl rfl h

/-- A fold of non-SERVING token updates preserves the queue invariant. -/
theorem foldl_updTok_inv (ids : List Int) (f : TokenRow → TokenRow)
    (hid : ∀ t, (f t).id = t.id) (hst : ∀ t, (f t).state ≠ TokenState.SERVING) :
    ∀ db, QueueInv db → QueueInv (ids.foldl (fun d i => updTok d i f) db) := by
  induction ids with
  | nil => exact fun db h => h
  | cons i rest ih =>
    intro db h
    exact ih (updTok db i f) (QueueInv_updTok_nonserving db i f hid hst h)

/-- `close_now` preserves the queue invariant (it only cancels tokens). -/
theorem close_now_inv (db : DB) (sid now : Int) (h : QueueInv db) :
    QueueInv (close_now db sid now).2 := by
  simp only [close_now]
  cases hgs : getSession db sid with
  | none => exact h
  | some s =>
    dsimp only
    exact foldl_updTok_inv _
      (fun u => { u with state := TokenState.CANCELLED, last_state_change_at := now })
      (fun t => rfl) (fun t hcon => nomatch hcon)
      (updSession db sid (fun r => { r with unplanned_closed := true }))
      (QueueInv_congr db _ rfl rfl h)

/-- Every replayed event preserves the queue invariant. -/
theorem dispatchEvent_inv (sid now : Int) (s : SessionRow) (db : DB) (e : BulkEvent)
    (h : QueueInv db) : QueueInv (dispatchEvent sid now s db e).2.2 := by
  simp only [dispatchEvent]
  repeat' split
  all_goals first
    | exact h
    | exact QueueInv_updTok_nonserving _ _ _ (fun t => rfl) (fun t hcon => nomatch hcon) h
    | exact serve_next_inv db sid now h
    | exact skip_token_inv db sid _ now h
    | exact cancel_token_inv db sid _ now h
    | exact QueueInv_congr db _ rfl rfl h

/-- The replay loop preserves the queue invariant. -/
theorem bulkLoop_inv (cid : String) (sid now : Int) :
    ∀ (events : List BulkEvent) (s : SessionRow) (acc : Int) (db : DB), QueueInv db →
      QueueInv (bulkLoop cid sid now s acc db events).db := by
  intro events
  induction events with
  | nil => exact fun s acc db h => h
  | cons e rest ih =>
    intro s acc db h
    show QueueInv (bulkLoop cid sid now s acc db (e :: rest)).db
    simp only [bulkLoop]
    rcases hins : _sb_insert_client_event db sid cid e.event_id e.event_type
      with ⟨isNew, dbi⟩
    have hinvi : QueueInv dbi := by
      unfold _sb_insert_client_event at hins
      split at hins <;>
        (simp only [Prod.mk.injEq] at hins; exact QueueInv_congr db dbi
          (by rw [← hins.2]) (by rw [← hins.2]) h)
    cases isNew with
    | false =>
      simp only [Bool.false_eq_true, if_false]
      exact ih s acc dbi hinvi
    | true =>
      simp only [if_true]
      have hde := dispatchEvent_inv sid now s dbi e hinvi
      rcases hdisp : dispatchEvent sid now s dbi e with ⟨err?, s2, db2⟩
      rw [hdisp] at hde
      cases err? with
      | some err => exact hde
      | none => exact ih s2 (acc + 1) db2 hde

/-- Every public queue operation preserves the queue invariant. -/
theorem applyOp_inv (op : Op) (now : Int) (db : DB) (h : QueueInv db) :
    QueueInv (applyOp op now db) := by
  cases op with
  | book clinic doctor dateKey body =>
    exact book_token_inv db clinic doctor dateKey body now h
  | bookSlot sessionId clinic doctor dateKey body =>
    exact book_slot_inv db sessionId clinic doctor dateKey body now h
  | walkin sid body => exact add_walkin_inv db sid body now h
  | arrive tid => exact mark_arrived_inv db tid now h
  | serveNext sid => exact serve_next_inv db sid now h
  | skip sid tid => exact skip_token_inv db sid tid now h
  | cancel sid tid => exact cancel_token_inv db sid tid now h
  | emergency sid m => exact trigger_emergency_inv db sid m h
  | closeNow sid => exact close_now_inv db sid now h
  | bulk cid sid events =>
    show QueueInv (bulk_events db cid sid events now).db
    simp only [bulk_events]
    cases hgs : getSession db sid with
    | none => exact h
    | some s => exact bulkLoop_inv cid sid now events s 0 db h

/-- C1: after any sequence of public queue operations (book, book_slot,
walk-in, mark_arrived, serve_next, skip, cancel, trigger_emergency,
close_session, batch replay) run sequentially from the initial empty database,
every session has at most one token in state SERVING. -/
theorem serving_invariant (l : List (Op × Int)) (sid : Int) :
    servingCount (applyOps initDB l) sid ≤ 1 := by
  have hinit : QueueInv initDB := by
    refine ⟨by simp [initDB], by simp [initDB], fun sid2 => ?_⟩
    show (List.countP _ ([] : List TokenRow)) ≤ 1
    simp
  have main : ∀ (l : List (Op × Int)) (db : DB), QueueInv db → QueueInv (applyOps db l) := by
    intro l
    induction l with
    | nil => exact fun db h => h
    | cons p rest ih =>
      intro db h
      exact ih _ (applyOp_inv p.1 p.2 db h)
  exact (main l initDB hinit).2.2 sid
